import Mathlib

/-!
Verification of the task-management backend (main.py / models.py).

The Python handlers are shallowly embedded as pure Lean functions over an
explicit relational state `DB`.  Every handler takes the state and returns
the successor state together with an `Except Err` result; returning the
state even on the error path mirrors the reference implementation, where
each SQL statement runs on its own connection and commits independently,
so a row written before a later failure stays written.

Timestamps are modelled in minutes as integers; a value stored in the
database is either a parsed timestamp or a malformed string, mirroring
`datetime.fromisoformat` which can fail on corrupt stored text.  Ids are
naturals drawn from a single monotone counter, standing in for the store's
auto-increment keys.  Request bodies are validated first, mirroring the
pydantic `Field` constraints that FastAPI enforces before a handler runs.
-/

set_option linter.unusedVariables false

namespace NeZabudu

inductive Role where
  | user
  | admin
deriving DecidableEq

inductive TaskStatus where
  | todo
  | in_progress
  | done
  | archived
deriving DecidableEq

/-- A timestamp as stored in the database: either a value that
`datetime.fromisoformat` parses (abstracted to minutes since the epoch,
timezone already normalised to UTC), or a malformed raw string. -/
inductive DateVal where
  | parsed (minutes : Int)
  | malformed (raw : String)
deriving DecidableEq

/-- Error taxonomy of the service (spec section 7); each constructor
corresponds to one `HTTPException` detail raised in main.py. -/
inductive Err where
  | NotFound
  | AccessDenied
  | AdminRequired
  | ValidationError
  | UnknownTagIds (bad : List Nat)
  | Conflict
  | EmptyFile
  | TooLarge
  | MissingOnDisk
  | NotRepeating
  | NoDueDate
  | CorruptDueDate
deriving DecidableEq

/-- The authenticated caller (`current` in main.py). -/
structure Actor where
  id : Nat
  role : Role
deriving DecidableEq

structure User where
  id : Nat
  role : Role
deriving DecidableEq

structure Tag where
  id : Nat
  user_id : Nat
  name : String
deriving DecidableEq

structure Task where
  id : Nat
  user_id : Nat
  title : String
  description : Option String
  due_at : Option DateVal
  status : TaskStatus
  repeat_interval_minutes : Option Int
deriving DecidableEq

structure SubTask where
  id : Nat
  task_id : Nat
  user_id : Nat
  title : String
  is_done : Bool
deriving DecidableEq

structure FileRow where
  id : Nat
  task_id : Nat
  user_id : Nat
  filename : String
  content_type : Option String
  size_bytes : Nat
  storage_path : String
deriving DecidableEq

structure Reminder where
  id : Nat
  task_id : Nat
  user_id : Nat
  every_minutes : Int
  start_at : Option DateVal
  end_at : Option DateVal
  is_enabled : Bool
  next_run_at : Int
deriving DecidableEq

/-- The relational store plus the external byte store (`blobs` is the set
of storage paths that currently hold bytes on disk). -/
structure DB where
  users : List User
  tags : List Tag
  tasks : List Task
  subtasks : List SubTask
  files : List FileRow
  reminders : List Reminder
  taskTags : List (Nat × Nat)
  blobs : List String
  nextId : Nat
deriving DecidableEq

instance {ε α : Type} [DecidableEq ε] [DecidableEq α] :
    DecidableEq (Except ε α) := fun x y =>
  match x, y with
  | .ok a, .ok b =>
    if h : a = b then isTrue (by rw [h]) else isFalse (by simp [h])
  | .error a, .error b =>
    if h : a = b then isTrue (by rw [h]) else isFalse (by simp [h])
  | .ok _, .error _ => isFalse (by simp)
  | .error _, .ok _ => isFalse (by simp)

/-- Python truthiness of an optional stored date (`if start_at:` /
`if not row["due_at"]:`): `None` and the empty string are falsy. -/
def truthyDate : Option DateVal → Bool
  | none => false
  | some (.parsed _) => true
  | some (.malformed s) => !s.isEmpty

/-- compute_next_run from main.py: base is `start_at` when present and
parseable, otherwise `utcnow()` (`now` is passed explicitly here); a
present but malformed `start_at` falls back to `now` without an error. -/
def compute_next_run (start_at : Option DateVal) (every_minutes : Int) (now : Int) : Int :=
  let base :=
    if truthyDate start_at then
      match start_at with
      | some (.parsed m) => m
      | _ => now
    else now
  base + every_minutes

/-- Python str.strip() as used throughout main.py, modelled over the
string's character list so that the kernel can evaluate it on concrete
inputs (String.trim itself is defined over byte positions). -/
def pyStrip (s : String) : String :=
  String.mk (((s.data.dropWhile Char.isWhitespace).reverse.dropWhile
    Char.isWhitespace).reverse)

/-- normalize_pagination from main.py. -/
def normalize_pagination (limit offset : Int) : Int × Int :=
  (min (max limit 1) 100, max offset 0)

/-- The pagination acceptance of the list_tasks endpoint: FastAPI
validates the declared Query constraints (`limit ge=1 le=100`,
`offset ge=0`) before the handler body runs, rejecting out-of-range
values; the handler then applies normalize_pagination. -/
def list_tasks_pagination (limit offset : Int) : Except Err (Int × Int) :=
  if limit < 1 || 100 < limit || offset < 0 then .error .ValidationError
  else .ok (normalize_pagination limit offset)

/-- ensure_task_access from main.py. -/
def ensure_task_access (task_user_id : Nat) (current : Actor) : Except Err Unit :=
  if current.role = Role.admin then .ok ()
  else if task_user_id ≠ current.id then .error .AccessDenied
  else .ok ()

def findTask (db : DB) (id : Nat) : Option Task :=
  db.tasks.find? (fun t => t.id == id)

def findTag (db : DB) (id : Nat) : Option Tag :=
  db.tags.find? (fun t => t.id == id)

def findSubTask (db : DB) (id : Nat) : Option SubTask :=
  db.subtasks.find? (fun s => s.id == id)

def findFile (db : DB) (id : Nat) : Option FileRow :=
  db.files.find? (fun f => f.id == id)

def findReminder (db : DB) (id task_id : Nat) : Option Reminder :=
  db.reminders.find? (fun r => r.id == id && r.task_id == task_id)

def userExists (db : DB) (uid : Nat) : Bool :=
  db.users.any (fun u => u.id == uid)

/-- SELECT id FROM Tag WHERE user_id = ? AND id = ? is non-empty. -/
def tagOwnedBy (db : DB) (uid tid : Nat) : Bool :=
  db.tags.any (fun t => t.id == tid && t.user_id == uid)

/-- INSERT OR IGNORE INTO TaskTag. -/
def insertTaskTag (db : DB) (task_id tag_id : Nat) : DB :=
  if db.taskTags.contains (task_id, tag_id) then db
  else { db with taskTags := db.taskTags ++ [(task_id, tag_id)] }

/-- sync_task_tags from main.py: `None` means leave associations alone;
otherwise all ids must be tags owned by `current_user_id`
(else UnknownTagIds listing the offending ids), and the association rows
for the task are replaced wholesale (delete-all then insert-or-ignore). -/
def sync_task_tags (db : DB) (task_id current_user_id : Nat)
    (tag_ids : Option (List Nat)) : DB × Except Err Unit :=
  match tag_ids with
  | none => (db, .ok ())
  | some ids =>
    let bad := ids.filter (fun tid => !tagOwnedBy db current_user_id tid)
    if !ids.isEmpty && !bad.isEmpty then (db, .error (.UnknownTagIds bad))
    else
      let db1 := { db with taskTags := db.taskTags.filter (fun p => p.1 ≠ task_id) }
      (ids.foldl (fun d tid => insertTaskTag d task_id tid) db1, .ok ())

/-- SubTaskInlineCreate from models.py. -/
structure SubTaskInlineCreate where
  title : String
  is_done : Bool := false
deriving DecidableEq

def SubTaskInlineCreate.valid (s : SubTaskInlineCreate) : Bool :=
  1 ≤ s.title.length && s.title.length ≤ 200

/-- TaskCreate from models.py; `due_at` is a pydantic-validated datetime,
hence always parseable when present. -/
structure TaskCreate where
  title : String
  description : Option String := none
  due_at : Option Int := none
  status : TaskStatus := .todo
  repeat_interval_minutes : Option Int := none
  tag_ids : Option (List Nat) := none
  subtasks : Option (List SubTaskInlineCreate) := none
deriving DecidableEq

/-- The pydantic Field constraints of TaskCreate, enforced by FastAPI
before the handler body runs. -/
def TaskCreate.valid (d : TaskCreate) : Bool :=
  (1 ≤ d.title.length && d.title.length ≤ 200)
  && (match d.description with | none => true | some s => s.length ≤ 2000)
  && (match d.repeat_interval_minutes with | none => true | some m => 1 ≤ m && m ≤ 525600)
  && (match d.subtasks with | none => true | some l => l.all SubTaskInlineCreate.valid)

structure TaskUpdate where
  title : Option String := none
  description : Option String := none
  due_at : Option Int := none
  status : Option TaskStatus := none
  repeat_interval_minutes : Option Int := none
  tag_ids : Option (List Nat) := none
deriving DecidableEq

def TaskUpdate.valid (d : TaskUpdate) : Bool :=
  (match d.title with | none => true | some t => 1 ≤ t.length && t.length ≤ 200)
  && (match d.description with | none => true | some s => s.length ≤ 2000)
  && (match d.repeat_interval_minutes with | none => true | some m => 1 ≤ m && m ≤ 525600)

structure SubTaskCreate where
  task_id : Nat
  title : String
  is_done : Bool := false
deriving DecidableEq

def SubTaskCreate.valid (d : SubTaskCreate) : Bool :=
  1 ≤ d.title.length && d.title.length ≤ 200

structure SubTaskUpdate where
  title : Option String := none
  is_done : Option Bool := none
deriving DecidableEq

def SubTaskUpdate.valid (d : SubTaskUpdate) : Bool :=
  match d.title with | none => true | some t => 1 ≤ t.length && t.length ≤ 200

def tagNameValid (name : String) : Bool :=
  1 ≤ name.length && name.length ≤ 50

structure ReminderCreate where
  every_minutes : Int
  start_at : Option Int := none
  end_at : Option Int := none
  is_enabled : Bool := true
deriving DecidableEq

def ReminderCreate.valid (d : ReminderCreate) : Bool :=
  1 ≤ d.every_minutes && d.every_minutes ≤ 10080

structure ReminderUpdate where
  every_minutes : Option Int := none
  start_at : Option Int := none
  end_at : Option Int := none
  is_enabled : Option Bool := none
deriving DecidableEq

def ReminderUpdate.valid (d : ReminderUpdate) : Bool :=
  match d.every_minutes with | none => true | some m => 1 ≤ m && m ≤ 10080

/-- `if updates:` in update_reminder: no field supplied means no write. -/
def ReminderUpdate.allNone (d : ReminderUpdate) : Bool :=
  d.every_minutes.isNone && d.start_at.isNone && d.end_at.isNone && d.is_enabled.isNone

/-- The inline-subtask insertion loop at the end of create_task: each kept
entry becomes a SubTask row owned by the task's owner, id drawn from the
auto-increment counter. -/
def insertInlineSubtasks (db : DB) (task_id target_user_id : Nat)
    (subs : List SubTaskInlineCreate) : DB :=
  subs.foldl (fun d st =>
    { d with
      subtasks := d.subtasks ++
        [{ id := d.nextId, task_id := task_id, user_id := target_user_id,
           title := (pyStrip st.title), is_done := st.is_done }],
      nextId := d.nextId + 1 }) db

/-- create_task from main.py: resolve the target owner (admin may create
on behalf of an existing user), insert the Task row, then sync tags, then
insert at most 50 inline subtasks whose trimmed titles are non-empty.
Note the Task insert commits before sync_task_tags runs, so a tag error
leaves the new Task row in place. -/
def create_task (db : DB) (current : Actor) (user_id : Option Nat)
    (data : TaskCreate) : DB × Except Err Nat :=
  if !data.valid then (db, .error .ValidationError) else
  let resolve : Except Err Nat :=
    match user_id with
    | none => .ok current.id
    | some uid =>
      if current.role ≠ Role.admin then .error .AdminRequired
      else if !userExists db uid then .error .NotFound
      else .ok uid
  match resolve with
  | .error e => (db, .error e)
  | .ok target_user_id =>
    let tid := db.nextId
    let task : Task :=
      { id := tid, user_id := target_user_id,
        title := (pyStrip data.title), description := data.description,
        due_at := data.due_at.map DateVal.parsed, status := data.status,
        repeat_interval_minutes := data.repeat_interval_minutes }
    let db1 := { db with tasks := db.tasks ++ [task], nextId := db.nextId + 1 }
    match sync_task_tags db1 tid target_user_id data.tag_ids with
    | (db2, .error e) => (db2, .error e)
    | (db2, .ok _) =>
      match data.subtasks with
      | none => (db2, .ok tid)
      | some subs =>
        if subs.isEmpty then (db2, .ok tid)
        else
          let kept := (subs.filter (fun st => !(pyStrip st.title).isEmpty)).take 50
          (insertInlineSubtasks db2 tid target_user_id kept, .ok tid)

/-- get_task from main.py (read; the returned view is the row). -/
def get_task (db : DB) (current : Actor) (task_id : Nat) : DB × Except Err Task :=
  match findTask db task_id with
  | none => (db, .error .NotFound)
  | some row =>
    match ensure_task_access row.user_id current with
    | .error e => (db, .error e)
    | .ok _ => (db, .ok row)

/-- The UPDATE Task SET ... of update_task: only supplied fields change. -/
def applyTaskUpdate (d : TaskUpdate) (t : Task) : Task :=
  { t with
    title := (match d.title with | none => t.title | some s => pyStrip s),
    description := (match d.description with | none => t.description | some s => some s),
    due_at := (match d.due_at with | none => t.due_at | some m => some (.parsed m)),
    status := d.status.getD t.status,
    repeat_interval_minutes :=
      (match d.repeat_interval_minutes with
       | none => t.repeat_interval_minutes
       | some m => some m) }

/-- update_task from main.py: field updates are written first, then tags
are synced against the task's owner (`row["user_id"]`), not the caller. -/
def update_task (db : DB) (current : Actor) (task_id : Nat)
    (d : TaskUpdate) : DB × Except Err Unit :=
  if !d.valid then (db, .error .ValidationError) else
  match findTask db task_id with
  | none => (db, .error .NotFound)
  | some row =>
    match ensure_task_access row.user_id current with
    | .error e => (db, .error e)
    | .ok _ =>
      let tasks1 := db.tasks.map
        (fun t => if t.id == task_id then applyTaskUpdate d t else t)
      sync_task_tags { db with tasks := tasks1 } task_id row.user_id d.tag_ids

/-- Modelled from the spec: the relational schema lives in sqliteDB.py,
which is not under src; spec sections 3 and 4.4 state that SubTask,
Reminder, Attachment and association rows cascade-delete with their
parent Task row. -/
def cascadeTaskDelete (db : DB) (task_id : Nat) : DB :=
  { db with
    tasks := db.tasks.filter (fun t => t.id ≠ task_id),
    subtasks := db.subtasks.filter (fun s => s.task_id ≠ task_id),
    files := db.files.filter (fun f => f.task_id ≠ task_id),
    reminders := db.reminders.filter (fun r => r.task_id ≠ task_id),
    taskTags := db.taskTags.filter (fun p => p.1 ≠ task_id) }

/-- One iteration of the disk-removal loop: `os.path.exists` then
`os.remove` inside try/except; `removeOk` says whether the removal call
succeeds, and a failure is swallowed (the blob stays, nothing raises). -/
def removeBlob (blobs : List String) (path : String) (removeOk : String → Bool) : List String :=
  if blobs.contains path && removeOk path then blobs.filter (fun p => p ≠ path)
  else blobs

/-- delete_task from main.py: best-effort removal of each attachment's
bytes (failures swallowed), then the Task row and its child rows go. -/
def delete_task (db : DB) (current : Actor) (task_id : Nat)
    (removeOk : String → Bool) : DB × Except Err Unit :=
  match findTask db task_id with
  | none => (db, .error .NotFound)
  | some row =>
    match ensure_task_access row.user_id current with
    | .error e => (db, .error e)
    | .ok _ =>
      let taskFiles := db.files.filter (fun f => f.task_id == task_id)
      let blobs1 := taskFiles.foldl (fun bs f => removeBlob bs f.storage_path removeOk) db.blobs
      (cascadeTaskDelete { db with blobs := blobs1 } task_id, .ok ())

/-- generate_next_occurrence from main.py: requires a repeat interval and
a due date (Python truthiness: None, 0 and "" are falsy), parses the
stored due date (CorruptDueDate on failure), then inserts a fresh Task
with due shifted by the interval, status reset to todo, and copies of the
source's association rows. -/
def generate_next_occurrence (db : DB) (current : Actor) (task_id : Nat) :
    DB × Except Err Nat :=
  match findTask db task_id with
  | none => (db, .error .NotFound)
  | some row =>
    match ensure_task_access row.user_id current with
    | .error e => (db, .error e)
    | .ok _ =>
      if row.repeat_interval_minutes.getD 0 == 0 then (db, .error .NotRepeating)
      else if !truthyDate row.due_at then (db, .error .NoDueDate)
      else
        match row.due_at with
        | some (.parsed due) =>
          let m := row.repeat_interval_minutes.getD 0
          let nid := db.nextId
          let newTask : Task :=
            { id := nid, user_id := row.user_id,
              title := row.title, description := row.description,
              due_at := some (.parsed (due + m)), status := .todo,
              repeat_interval_minutes := row.repeat_interval_minutes }
          let db1 := { db with tasks := db.tasks ++ [newTask], nextId := nid + 1 }
          let links := db.taskTags.filter (fun p => p.1 == task_id)
          (links.foldl (fun d l => insertTaskTag d nid l.2) db1, .ok nid)
        | _ => (db, .error .CorruptDueDate)

/-- create_subtask from main.py: `user_id` is copied from the parent
task's row, never from the caller. -/
def create_subtask (db : DB) (current : Actor) (d : SubTaskCreate) :
    DB × Except Err Nat :=
  if !d.valid then (db, .error .ValidationError) else
  match findTask db d.task_id with
  | none => (db, .error .NotFound)
  | some task =>
    match ensure_task_access task.user_id current with
    | .error e => (db, .error e)
    | .ok _ =>
      let sid := db.nextId
      let row : SubTask :=
        { id := sid, task_id := d.task_id, user_id := task.user_id,
          title := (pyStrip d.title), is_done := d.is_done }
      ({ db with subtasks := db.subtasks ++ [row], nextId := db.nextId + 1 }, .ok sid)

/-- list_subtasks from main.py (read). -/
def list_subtasks (db : DB) (current : Actor) (task_id : Nat) :
    DB × Except Err (List SubTask) :=
  match findTask db task_id with
  | none => (db, .error .NotFound)
  | some task =>
    match ensure_task_access task.user_id current with
    | .error e => (db, .error e)
    | .ok _ => (db, .ok (db.subtasks.filter (fun s => s.task_id == task_id)))

def applySubTaskUpdate (d : SubTaskUpdate) (s : SubTask) : SubTask :=
  { s with
    title := (match d.title with | none => s.title | some t => pyStrip t),
    is_done := d.is_done.getD s.is_done }

/-- update_subtask from main.py: access is gated through the parent
task's owner. -/
def update_subtask (db : DB) (current : Actor) (subtask_id : Nat)
    (d : SubTaskUpdate) : DB × Except Err Unit :=
  if !d.valid then (db, .error .ValidationError) else
  match findSubTask db subtask_id with
  | none => (db, .error .NotFound)
  | some row =>
    match findTask db row.task_id with
    | none => (db, .error .NotFound)
    | some task =>
      match ensure_task_access task.user_id current with
      | .error e => (db, .error e)
      | .ok _ =>
        let subs1 := db.subtasks.map
          (fun s => if s.id == subtask_id then applySubTaskUpdate d s else s)
        ({ db with subtasks := subs1 }, .ok ())

/-- delete_subtask from main.py. -/
def delete_subtask (db : DB) (current : Actor) (subtask_id : Nat) :
    DB × Except Err Unit :=
  match findSubTask db subtask_id with
  | none => (db, .error .NotFound)
  | some row =>
    match findTask db row.task_id with
    | none => (db, .error .NotFound)
    | some task =>
      match ensure_task_access task.user_id current with
      | .error e => (db, .error e)
      | .ok _ =>
        ({ db with subtasks := db.subtasks.filter (fun s => s.id ≠ subtask_id) }, .ok ())

/-- Modelled from the spec: the Tag table's per-owner name uniqueness
constraint lives in the schema (sqliteDB.py), not under src; spec
section 3 states (user_id, name) is unique per owner, and create_tag
converts the resulting insert failure into a Conflict. -/
def tagNameTaken (db : DB) (uid : Nat) (name : String) : Bool :=
  db.tags.any (fun t => t.user_id == uid && t.name == name)

/-- create_tag from main.py: an admin may pass an explicit target user
id; note the handler performs no existence check on that id (unlike
create_task). -/
def create_tag (db : DB) (current : Actor) (user_id : Option Nat)
    (name : String) : DB × Except Err Nat :=
  if !tagNameValid name then (db, .error .ValidationError) else
  let resolve : Except Err Nat :=
    match user_id with
    | none => .ok current.id
    | some uid =>
      if current.role ≠ Role.admin then .error .AdminRequired
      else .ok uid
  match resolve with
  | .error e => (db, .error e)
  | .ok target_user_id =>
    if tagNameTaken db target_user_id (pyStrip name) then (db, .error .Conflict)
    else
      let tid := db.nextId
      let row : Tag := { id := tid, user_id := target_user_id, name := (pyStrip name) }
      ({ db with tags := db.tags ++ [row], nextId := db.nextId + 1 }, .ok tid)

/-- update_tag from main.py: the owner check is written inline
(`row["user_id"] != current.id and current.role != ADMIN`). -/
def update_tag (db : DB) (current : Actor) (tag_id : Nat)
    (name : Option String) : DB × Except Err Unit :=
  if !(match name with | none => true | some n => tagNameValid n) then
    (db, .error .ValidationError)
  else
    match findTag db tag_id with
    | none => (db, .error .NotFound)
    | some row =>
      if row.user_id ≠ current.id ∧ current.role ≠ Role.admin then
        (db, .error .AccessDenied)
      else
        match name with
        | none => (db, .ok ())
        | some n =>
          let tags1 := db.tags.map
            (fun t => if t.id == tag_id then { t with name := (pyStrip n) } else t)
          ({ db with tags := tags1 }, .ok ())

/-- delete_tag from main.py. -/
def delete_tag (db : DB) (current : Actor) (tag_id : Nat) : DB × Except Err Unit :=
  match findTag db tag_id with
  | none => (db, .error .NotFound)
  | some row =>
    if row.user_id ≠ current.id ∧ current.role ≠ Role.admin then
      (db, .error .AccessDenied)
    else
      ({ db with tags := db.tags.filter (fun t => t.id ≠ tag_id) }, .ok ())

/-- upload_file from main.py: content abstracted to its byte count; the
size checks run after the access check and before the disk write and the
metadata insert, so a rejected upload leaves the state untouched. -/
def upload_file (db : DB) (current : Actor) (task_id : Nat)
    (filename : String) (content_type : Option String) (size : Nat)
    (storage_path : String) : DB × Except Err Nat :=
  match findTask db task_id with
  | none => (db, .error .NotFound)
  | some task =>
    match ensure_task_access task.user_id current with
    | .error e => (db, .error e)
    | .ok _ =>
      if size == 0 then (db, .error .EmptyFile)
      else if size > 25 * 1024 * 1024 then (db, .error .TooLarge)
      else
        let fid := db.nextId
        let row : FileRow :=
          { id := fid, task_id := task_id, user_id := task.user_id,
            filename := filename, content_type := content_type,
            size_bytes := size, storage_path := storage_path }
        ({ db with
            blobs := db.blobs ++ [storage_path],
            files := db.files ++ [row],
            nextId := db.nextId + 1 }, .ok fid)

/-- list_files from main.py (read). -/
def list_files (db : DB) (current : Actor) (task_id : Nat) :
    DB × Except Err (List FileRow) :=
  match findTask db task_id with
  | none => (db, .error .NotFound)
  | some task =>
    match ensure_task_access task.user_id current with
    | .error e => (db, .error e)
    | .ok _ => (db, .ok (db.files.filter (fun f => f.task_id == task_id)))

/-- download_file from main.py (read): resolves metadata, gates through
the parent task's owner, and requires the bytes to still exist. -/
def download_file (db : DB) (current : Actor) (file_id : Nat) :
    DB × Except Err String :=
  match findFile db file_id with
  | none => (db, .error .NotFound)
  | some row =>
    match findTask db row.task_id with
    | none => (db, .error .NotFound)
    | some task =>
      match ensure_task_access task.user_id current with
      | .error e => (db, .error e)
      | .ok _ =>
        if !db.blobs.contains row.storage_path then (db, .error .MissingOnDisk)
        else (db, .ok row.storage_path)

/-- delete_file from main.py: best-effort disk removal, then the row. -/
def delete_file (db : DB) (current : Actor) (file_id : Nat)
    (removeOk : String → Bool) : DB × Except Err Unit :=
  match findFile db file_id with
  | none => (db, .error .NotFound)
  | some row =>
    match findTask db row.task_id with
    | none => (db, .error .NotFound)
    | some task =>
      match ensure_task_access task.user_id current with
      | .error e => (db, .error e)
      | .ok _ =>
        ({ db with
            blobs := removeBlob db.blobs row.storage_path removeOk,
            files := db.files.filter (fun f => f.id ≠ file_id) }, .ok ())

/-- create_reminder from main.py: `user_id` copied from the parent task;
next_run_at computed at write time from the new values. -/
def create_reminder (db : DB) (current : Actor) (task_id : Nat)
    (d : ReminderCreate) (now : Int) : DB × Except Err Nat :=
  if !d.valid then (db, .error .ValidationError) else
  match findTask db task_id with
  | none => (db, .error .NotFound)
  | some task =>
    match ensure_task_access task.user_id current with
    | .error e => (db, .error e)
    | .ok _ =>
      let start_at := d.start_at.map DateVal.parsed
      let rid := db.nextId
      let row : Reminder :=
        { id := rid, task_id := task_id, user_id := task.user_id,
          every_minutes := d.every_minutes, start_at := start_at,
          end_at := d.end_at.map DateVal.parsed, is_enabled := d.is_enabled,
          next_run_at := compute_next_run start_at d.every_minutes now }
      ({ db with reminders := db.reminders ++ [row], nextId := db.nextId + 1 }, .ok rid)

/-- list_reminders from main.py (read). -/
def list_reminders (db : DB) (current : Actor) (task_id : Nat) :
    DB × Except Err (List Reminder) :=
  match findTask db task_id with
  | none => (db, .error .NotFound)
  | some task =>
    match ensure_task_access task.user_id current with
    | .error e => (db, .error e)
    | .ok _ => (db, .ok (db.reminders.filter (fun r => r.task_id == task_id)))

/-- update_reminder from main.py: with no supplied field nothing is
written; otherwise next_run_at is recomputed from the new interval/start
when supplied, else the stored ones, even if only is_enabled changed. -/
def update_reminder (db : DB) (current : Actor) (task_id reminder_id : Nat)
    (d : ReminderUpdate) (now : Int) : DB × Except Err Unit :=
  if !d.valid then (db, .error .ValidationError) else
  match findTask db task_id with
  | none => (db, .error .NotFound)
  | some task =>
    match ensure_task_access task.user_id current with
    | .error e => (db, .error e)
    | .ok _ =>
      match findReminder db reminder_id task_id with
      | none => (db, .error .NotFound)
      | some row =>
        if d.allNone then (db, .ok ())
        else
          let new_every := d.every_minutes.getD row.every_minutes
          let new_start := match d.start_at with
            | some v => some (DateVal.parsed v)
            | none => row.start_at
          let nr := compute_next_run new_start new_every now
          ({ db with reminders := db.reminders.map (fun r =>
              if r.id == reminder_id then
                { r with
                  every_minutes := new_every,
                  start_at := new_start,
                  end_at := (match d.end_at with
                    | some v => some (DateVal.parsed v)
                    | none => r.end_at),
                  is_enabled := d.is_enabled.getD r.is_enabled,
                  next_run_at := nr }
              else r) }, .ok ())

/-- delete_reminder from main.py. -/
def delete_reminder (db : DB) (current : Actor) (task_id reminder_id : Nat) :
    DB × Except Err Unit :=
  match findTask db task_id with
  | none => (db, .error .NotFound)
  | some task =>
    match ensure_task_access task.user_id current with
    | .error e => (db, .error e)
    | .ok _ =>
      match findReminder db reminder_id task_id with
      | none => (db, .error .NotFound)
      | some _ =>
        ({ db with reminders := db.reminders.filter (fun r => r.id ≠ reminder_id) },
         .ok ())

/-- The read and write entry points of the service that the claims
quantify over, with their request data.  Delete operations carry the
oracle saying whether a physical byte-removal call succeeds. -/
inductive Op where
  | createTask (user_id : Option Nat) (data : TaskCreate)
  | getTask (task_id : Nat)
  | updateTask (task_id : Nat) (d : TaskUpdate)
  | deleteTask (task_id : Nat) (removeOk : String → Bool)
  | generateNext (task_id : Nat)
  | createTag (user_id : Option Nat) (name : String)
  | updateTag (tag_id : Nat) (name : Option String)
  | deleteTag (tag_id : Nat)
  | createSubtask (d : SubTaskCreate)
  | listSubtasks (task_id : Nat)
  | updateSubtask (subtask_id : Nat) (d : SubTaskUpdate)
  | deleteSubtask (subtask_id : Nat)
  | uploadFile (task_id : Nat) (filename : String) (content_type : Option String)
      (size : Nat) (storage_path : String)
  | listFiles (task_id : Nat)
  | downloadFile (file_id : Nat)
  | deleteFile (file_id : Nat) (removeOk : String → Bool)
  | createReminder (task_id : Nat) (d : ReminderCreate) (now : Int)
  | listReminders (task_id : Nat)
  | updateReminder (task_id reminder_id : Nat) (d : ReminderUpdate) (now : Int)
  | deleteReminder (task_id reminder_id : Nat)

/-- Whether the request body passes its pydantic model validation
(FastAPI rejects the request before the handler otherwise). -/
def opValid : Op → Bool
  | .createTask _ data => data.valid
  | .updateTask _ d => d.valid
  | .createTag _ name => tagNameValid name
  | .updateTag _ name => (match name with | none => true | some n => tagNameValid n)
  | .createSubtask d => d.valid
  | .updateSubtask _ d => d.valid
  | .createReminder _ d _ => d.valid
  | .updateReminder _ _ d _ => d.valid
  | _ => true

/-- The owner of the specific resource an operation targets, resolved the
way the corresponding handler resolves it (directly, or through the
parent Task row); `none` for creation-on-behalf-of operations, which are
not aimed at an existing resource. -/
def opOwner (op : Op) (db : DB) : Option Nat :=
  match op with
  | .createTask _ _ => none
  | .getTask i => (findTask db i).map Task.user_id
  | .updateTask i _ => (findTask db i).map Task.user_id
  | .deleteTask i _ => (findTask db i).map Task.user_id
  | .generateNext i => (findTask db i).map Task.user_id
  | .createTag _ _ => none
  | .updateTag i _ => (findTag db i).map Tag.user_id
  | .deleteTag i => (findTag db i).map Tag.user_id
  | .createSubtask d => (findTask db d.task_id).map Task.user_id
  | .listSubtasks i => (findTask db i).map Task.user_id
  | .updateSubtask i _ =>
      (findSubTask db i).bind (fun s => (findTask db s.task_id).map Task.user_id)
  | .deleteSubtask i =>
      (findSubTask db i).bind (fun s => (findTask db s.task_id).map Task.user_id)
  | .uploadFile i _ _ _ _ => (findTask db i).map Task.user_id
  | .listFiles i => (findTask db i).map Task.user_id
  | .downloadFile i =>
      (findFile db i).bind (fun f => (findTask db f.task_id).map Task.user_id)
  | .deleteFile i _ =>
      (findFile db i).bind (fun f => (findTask db f.task_id).map Task.user_id)
  | .createReminder i _ _ => (findTask db i).map Task.user_id
  | .listReminders i => (findTask db i).map Task.user_id
  | .updateReminder i _ _ _ => (findTask db i).map Task.user_id
  | .deleteReminder i _ => (findTask db i).map Task.user_id

/-- Dispatch an operation to its handler, keeping the successor state and
the error outcome (returned values are dropped). -/
def runOp (op : Op) (current : Actor) (db : DB) : DB × Except Err Unit :=
  match op with
  | .createTask uid data =>
      let r := create_task db current uid data
      (r.1, r.2.map (fun _ => ()))
  | .getTask i =>
      let r := get_task db current i
      (r.1, r.2.map (fun _ => ()))
  | .updateTask i d => update_task db current i d
  | .deleteTask i ok => delete_task db current i ok
  | .generateNext i =>
      let r := generate_next_occurrence db current i
      (r.1, r.2.map (fun _ => ()))
  | .createTag uid name =>
      let r := create_tag db current uid name
      (r.1, r.2.map (fun _ => ()))
  | .updateTag i name => update_tag db current i name
  | .deleteTag i => delete_tag db current i
  | .createSubtask d =>
      let r := create_subtask db current d
      (r.1, r.2.map (fun _ => ()))
  | .listSubtasks i =>
      let r := list_subtasks db current i
      (r.1, r.2.map (fun _ => ()))
  | .updateSubtask i d => update_subtask db current i d
  | .deleteSubtask i => delete_subtask db current i
  | .uploadFile i fn ct sz p =>
      let r := upload_file db current i fn ct sz p
      (r.1, r.2.map (fun _ => ()))
  | .listFiles i =>
      let r := list_files db current i
      (r.1, r.2.map (fun _ => ()))
  | .downloadFile i =>
      let r := download_file db current i
      (r.1, r.2.map (fun _ => ()))
  | .deleteFile i ok => delete_file db current i ok
  | .createReminder i d now =>
      let r := create_reminder db current i d now
      (r.1, r.2.map (fun _ => ()))
  | .listReminders i =>
      let r := list_reminders db current i
      (r.1, r.2.map (fun _ => ()))
  | .updateReminder i ri d now => update_reminder db current i ri d now
  | .deleteReminder i ri => delete_reminder db current i ri

/-- Freshness of the auto-increment counter: every existing Task id and
every child row's task reference is below `nextId`, so a newly inserted
row can never collide with or be referenced by existing rows. -/
def FreshIds (db : DB) : Prop :=
  (∀ t ∈ db.tasks, t.id < db.nextId) ∧
  (∀ p ∈ db.taskTags, p.1 < db.nextId) ∧
  (∀ s ∈ db.subtasks, s.task_id < db.nextId) ∧
  (∀ f ∈ db.files, f.task_id < db.nextId) ∧
  (∀ r ∈ db.reminders, r.task_id < db.nextId)

/-- The cross-cutting ownership invariant of spec section 3: every owned
child row's user_id equals its parent Task's user_id. -/
def ChildInv (db : DB) : Prop :=
  (∀ s ∈ db.subtasks, ∀ t ∈ db.tasks, t.id = s.task_id → s.user_id = t.user_id) ∧
  (∀ f ∈ db.files, ∀ t ∈ db.tasks, t.id = f.task_id → f.user_id = t.user_id) ∧
  (∀ r ∈ db.reminders, ∀ t ∈ db.tasks, t.id = r.task_id → r.user_id = t.user_id)

/-- Well-formed store: fresh counter, distinct Task ids (the store's
primary key), and the child-ownership invariant. -/
def Wf (db : DB) : Prop :=
  FreshIds db ∧ (db.tasks.map Task.id).Nodup ∧ ChildInv db

instance (db : DB) : Decidable (FreshIds db) := by
  unfold FreshIds; infer_instance

instance (db : DB) : Decidable (ChildInv db) := by
  unfold ChildInv; infer_instance

instance (db : DB) : Decidable (Wf db) := by
  unfold Wf; infer_instance

/-- A small populated store used to instantiate the theorems: users 1 and
2 (plain) and 9 (admin); task 5 belongs to user 1 and task 6 to user 2;
tag 3 belongs to user 1; subtask 7, file 8 and reminder 10 hang off
task 5. -/
def sampleDB : DB :=
  { users := [{ id := 1, role := .user }, { id := 2, role := .user },
              { id := 9, role := .admin }],
    tags := [{ id := 3, user_id := 1, name := "home" },
             { id := 4, user_id := 2, name := "work" }],
    tasks := [{ id := 5, user_id := 1, title := "t", description := none,
                due_at := some (.parsed 100), status := .todo,
                repeat_interval_minutes := some 30 },
              { id := 6, user_id := 2, title := "u", description := none,
                due_at := none, status := .todo,
                repeat_interval_minutes := none }],
    subtasks := [{ id := 7, task_id := 5, user_id := 1, title := "s",
                   is_done := false }],
    files := [{ id := 8, task_id := 5, user_id := 1, filename := "f.txt",
                content_type := none, size_bytes := 10,
                storage_path := "up/f" }],
    reminders := [{ id := 10, task_id := 5, user_id := 1, every_minutes := 60,
                    start_at := none, end_at := none, is_enabled := true,
                    next_run_at := 160 }],
    taskTags := [(5, 3)],
    blobs := ["up/f"],
    nextId := 11 }

theorem ensure_ok_of_allowed {uid : Nat} {a : Actor}
    (h : a.role = Role.admin ∨ uid = a.id) :
    ensure_task_access uid a = .ok () := by
  unfold ensure_task_access
  rcases h with h | h
  · rw [if_pos h]
  · by_cases hr : a.role = Role.admin
    · rw [if_pos hr]
    · rw [if_neg hr, if_neg]
      simp [h]

theorem ensure_denied {uid : Nat} {a : Actor}
    (hr : a.role ≠ Role.admin) (hu : uid ≠ a.id) :
    ensure_task_access uid a = .error .AccessDenied := by
  unfold ensure_task_access
  rw [if_neg hr, if_pos hu]

theorem ensure_ok_iff (uid : Nat) (a : Actor) :
    ensure_task_access uid a = .ok () ↔ (a.role = Role.admin ∨ a.id = uid) := by
  constructor
  · intro h
    by_cases hr : a.role = Role.admin
    · exact Or.inl hr
    · right
      by_contra hu
      rw [ensure_denied hr (fun e => hu e.symm)] at h
      exact Except.noConfusion h
  · intro h
    exact ensure_ok_of_allowed (h.imp id Eq.symm)

/-- C8: computeNextRun returns now + everyMinutes when startAt is absent,
startAt + everyMinutes when startAt is present and parseable, and falls
back to now + everyMinutes, raising no error, when startAt is present
but malformed. -/
theorem C8_compute_next_run (every now t : Int) (s : String) :
    compute_next_run none every now = now + every ∧
    compute_next_run (some (.parsed t)) every now = t + every ∧
    compute_next_run (some (.malformed s)) every now = now + every := by
  refine ⟨rfl, rfl, ?_⟩
  unfold compute_next_run truthyDate
  by_cases h : s.isEmpty <;> simp [h]

/-- C5 counterexample: on the task list operation, limit = 0 is rejected
with a validation error by the endpoint's declared Query bounds instead
of behaving like limit = 1, so out-of-range pagination inputs are not
silently clamped. -/
theorem C5_counterexample :
    list_tasks_pagination 0 0 = .error .ValidationError ∧
    list_tasks_pagination 1 0 = .ok (1, 0) := by
  constructor <;> decide

/-- C5 amended: normalize_pagination itself clamps limit into [1,100] and
offset to ≥ 0 (0 behaves as 1, 1000 as 100, -5 as 0), but the task list
endpoint rejects out-of-range limit/offset with a validation error before
the clamp can take effect, and passes in-range values through unchanged. -/
theorem C5_list_pagination_amended (limit offset : Int) :
    normalize_pagination 0 offset = (1, max offset 0) ∧
    normalize_pagination 1000 offset = (100, max offset 0) ∧
    normalize_pagination limit (-5) = (min (max limit 1) 100, 0) ∧
    (1 ≤ limit → limit ≤ 100 → 0 ≤ offset →
      list_tasks_pagination limit offset = .ok (limit, offset)) ∧
    ((limit < 1 ∨ 100 < limit ∨ offset < 0) →
      list_tasks_pagination limit offset = .error .ValidationError) := by
  refine ⟨?_, ?_, ?_, ?_, ?_⟩
  · unfold normalize_pagination
    norm_num
  · unfold normalize_pagination
    norm_num
  · unfold normalize_pagination
    norm_num
  · intro h1 h2 h3
    unfold list_tasks_pagination normalize_pagination
    rw [if_neg]
    · rw [max_eq_left h1, min_eq_left h2, max_eq_left h3]
    · simp only [Bool.or_eq_true, decide_eq_true_eq, not_or]
      omega
  · intro h
    unfold list_tasks_pagination
    rw [if_pos]
    simp only [Bool.or_eq_true, decide_eq_true_eq]
    omega

theorem C5_list_pagination_amended_witness :
    (1 : Int) ≤ 50 ∧ (50 : Int) ≤ 100 ∧ (0 : Int) ≤ 0 ∧
    list_tasks_pagination 50 0 = .ok (50, 0) :=
  ⟨by decide, by decide, by decide,
   (C5_list_pagination_amended 50 0).2.2.2.1 (by decide) (by decide) (by decide)⟩

/-- C9: attachment upload of 0 bytes fails EmptyFile and of more than
26214400 bytes fails TooLarge, in both cases leaving the store untouched
(no metadata row, no stored bytes); exactly 26214400 bytes succeeds and
inserts the metadata row. -/
theorem C9_upload_limits (db : DB) (a : Actor) (task_id : Nat)
    (fn : String) (ct : Option String) (p : String) (t : Task)
    (hfind : findTask db task_id = some t)
    (hacc : a.role = Role.admin ∨ t.user_id = a.id) :
    upload_file db a task_id fn ct 0 p = (db, .error .EmptyFile) ∧
    (∀ sz : Nat, 26214400 < sz →
      upload_file db a task_id fn ct sz p = (db, .error .TooLarge)) ∧
    (upload_file db a task_id fn ct 26214400 p).2 = .ok db.nextId ∧
    (upload_file db a task_id fn ct 26214400 p).1.files =
      db.files ++ [{ id := db.nextId, task_id := task_id, user_id := t.user_id,
                     filename := fn, content_type := ct, size_bytes := 26214400,
                     storage_path := p }] ∧
    (upload_file db a task_id fn ct 26214400 p).1.blobs = db.blobs ++ [p] := by
  have hok := ensure_ok_of_allowed hacc
  refine ⟨?_, ?_, ?_, ?_, ?_⟩
  · unfold upload_file
    rw [hfind]
    simp [hok]
  · intro sz hsz
    have h0 : (sz == 0) = false := by
      rw [beq_eq_false_iff_ne]
      omega
    have h1 : 25 * 1024 * 1024 < sz := by omega
    unfold upload_file
    rw [hfind]
    simp [hok, h0, h1]
  · unfold upload_file
    rw [hfind]
    simp [hok]
  · unfold upload_file
    rw [hfind]
    simp [hok]
  · unfold upload_file
    rw [hfind]
    simp [hok]

theorem C9_upload_limits_witness :
    findTask sampleDB 5 =
      some (Task.mk 5 1 "t" none (some (.parsed 100)) .todo (some 30)) ∧
    ((Actor.mk 1 .user).role = Role.admin ∨
      (Task.mk 5 1 "t" none (some (.parsed 100)) .todo (some 30)).user_id =
        (Actor.mk 1 .user).id) ∧
    (upload_file sampleDB ⟨1, .user⟩ 5 "a.txt" none 26214400 "up/a").2 =
      .ok sampleDB.nextId :=
  ⟨by decide, Or.inr rfl,
    (C9_upload_limits sampleDB ⟨1, .user⟩ 5 "a.txt" none "up/a"
      (Task.mk 5 1 "t" none (some (.parsed 100)) .todo (some 30))
      (by decide) (Or.inr rfl)).2.2.1⟩

/-- C4 counterexample: an admin creating a tag for target user id 99,
which does not exist in the store, succeeds instead of failing NotFound —
the tag creation handler performs no existence check on the target id. -/
theorem C4_counterexample :
    userExists sampleDB 99 = false ∧
    (create_tag sampleDB ⟨9, .admin⟩ (some 99) "x").2 = .ok 11 ∧
    (create_tag sampleDB ⟨9, .admin⟩ (some 99) "x").2 ≠ .error .NotFound := by
  refine ⟨by decide, by decide, by decide⟩

/-- C4 amended: a non-admin caller supplying an explicit target user id
different from their own fails AdminRequired for both task and tag
creation; an admin caller supplying a target user id that does not
resolve to an existing user fails NotFound for task creation, while tag
creation performs no existence check and creates the tag under the
supplied id as given. -/
theorem C4_act_as_user_amended (db : DB) (a : Actor) (uid : Nat)
    (data : TaskCreate) (name : String)
    (hrole : a.role ≠ Role.admin) (hdiff : uid ≠ a.id)
    (hvd : data.valid = true) (hvn : tagNameValid name = true) :
    create_task db a (some uid) data = (db, .error .AdminRequired) ∧
    create_tag db a (some uid) name = (db, .error .AdminRequired) ∧
    (∀ (adm : Actor) (uid2 : Nat), adm.role = Role.admin →
      userExists db uid2 = false →
      create_task db adm (some uid2) data = (db, .error .NotFound)) ∧
    (∀ (adm : Actor) (uid2 : Nat), adm.role = Role.admin →
      tagNameTaken db uid2 (pyStrip name) = false →
      (create_tag db adm (some uid2) name).2 = .ok db.nextId ∧
      (create_tag db adm (some uid2) name).1.tags =
        db.tags ++ [{ id := db.nextId, user_id := uid2, name := (pyStrip name) }]) := by
  refine ⟨?_, ?_, ?_, ?_⟩
  · unfold create_task
    simp [hvd, hrole]
  · unfold create_tag
    simp [hvn, hrole]
  · intro adm uid2 hadm hex
    unfold create_task
    simp [hvd, hadm, hex]
  · intro adm uid2 hadm htaken
    unfold create_tag
    simp [hvn, hadm, htaken]

theorem C4_act_as_user_amended_witness :
    (Actor.mk 2 .user).role ≠ Role.admin ∧ (1 : Nat) ≠ (Actor.mk 2 .user).id ∧
    (TaskCreate.mk "a" none none .todo none none none).valid = true ∧
    tagNameValid "z" = true ∧
    create_task sampleDB ⟨2, .user⟩ (some 1) (TaskCreate.mk "a" none none .todo none none none) =
      (sampleDB, .error .AdminRequired) :=
  ⟨by decide, by decide, by decide, by decide,
    (C4_act_as_user_amended sampleDB ⟨2, .user⟩ 1
      (TaskCreate.mk "a" none none .todo none none none) "z"
      (by decide) (by decide) (by decide) (by decide)).1⟩

/-- C3 counterexample: creating a task with a tagIds list containing the
unknown id 999 does fail UnknownTagIds, but the store is not left
unchanged — the Task row insert has already committed, leaving an
orphaned Task row behind. -/
theorem C3_counterexample :
    (create_task sampleDB ⟨1, .user⟩ none
      (TaskCreate.mk "a" none none .todo none (some [999]) none)).2 =
        .error (.UnknownTagIds [999]) ∧
    (create_task sampleDB ⟨1, .user⟩ none
      (TaskCreate.mk "a" none none .todo none (some [999]) none)).1.tasks ≠
        sampleDB.tasks := by
  refine ⟨by decide, by decide⟩

/-- C3 amended: request-validation failures reject a task creation before
any mutation, but a tagIds ownership failure (UnknownTagIds) is detected
only after the Task row insert has committed: the failed creation leaves
exactly the new, orphaned Task row behind, while no association row and
no subtask row is written. -/
theorem C3_partial_write_amended (db : DB) (a : Actor)
    (data : TaskCreate) (ids : List Nat)
    (hvd : data.valid = true) (hids : data.tag_ids = some ids)
    (hbad : ids.filter (fun tid => !tagOwnedBy db a.id tid) ≠ []) :
    (create_task db a none data).2 =
      .error (.UnknownTagIds (ids.filter (fun tid => !tagOwnedBy db a.id tid))) ∧
    (create_task db a none data).1.tasks = db.tasks ++
      [{ id := db.nextId, user_id := a.id, title := (pyStrip data.title),
         description := data.description, due_at := data.due_at.map DateVal.parsed,
         status := data.status,
         repeat_interval_minutes := data.repeat_interval_minutes }] ∧
    (create_task db a none data).1.taskTags = db.taskTags ∧
    (create_task db a none data).1.subtasks = db.subtasks ∧
    (∀ d2 : TaskCreate, d2.valid = false →
      create_task db a none d2 = (db, .error .ValidationError)) := by
  have hidsne : ids ≠ [] := by
    intro h
    rw [h] at hbad
    exact hbad rfl
  have h1 : ids.isEmpty = false := by
    cases ids with
    | nil => exact absurd rfl hidsne
    | cons x xs => rfl
  have h2 : (ids.filter (fun tid => !tagOwnedBy db a.id tid)).isEmpty = false := by
    cases hh : ids.filter (fun tid => !tagOwnedBy db a.id tid) with
    | nil => exact absurd hh hbad
    | cons x xs => rfl
  have h2' : (ids.filter (fun tid =>
      !(db.tags.any (fun t => t.id == tid && t.user_id == a.id)))).isEmpty = false := by
    simp only [tagOwnedBy] at h2
    exact h2
  have key : create_task db a none data =
      ({ db with
          tasks := db.tasks ++
            [{ id := db.nextId, user_id := a.id, title := (pyStrip data.title),
               description := data.description,
               due_at := data.due_at.map DateVal.parsed, status := data.status,
               repeat_interval_minutes := data.repeat_interval_minutes }],
          nextId := db.nextId + 1 },
        .error (.UnknownTagIds (ids.filter (fun tid => !tagOwnedBy db a.id tid)))) := by
    unfold create_task sync_task_tags
    rw [hids]
    simp only [hvd, Bool.not_true, Bool.false_eq_true, if_false, tagOwnedBy,
      h1, h2', Bool.not_false, Bool.and_self, if_true]
  refine ⟨?_, ?_, ?_, ?_, ?_⟩
  · rw [key]
  · rw [key]
  · rw [key]
  · rw [key]
  · intro d2 hd2
    unfold create_task
    simp [hd2]

theorem C3_partial_write_amended_witness :
    (TaskCreate.mk "a" none none .todo none (some [999]) none).valid = true ∧
    (TaskCreate.mk "a" none none .todo none (some [999]) none).tag_ids = some [999] ∧
    [999].filter (fun tid => !tagOwnedBy sampleDB 1 tid) ≠ [] ∧
    (create_task sampleDB ⟨1, .user⟩ none
      (TaskCreate.mk "a" none none .todo none (some [999]) none)).1.taskTags =
        sampleDB.taskTags :=
  ⟨by decide, by decide, by decide,
    (C3_partial_write_amended sampleDB ⟨1, .user⟩
      (TaskCreate.mk "a" none none .todo none (some [999]) none) [999]
      (by decide) (by decide) (by decide)).2.2.1⟩

theorem removeBlob_subset {bs : List String} {q : String} {ok : String → Bool}
    {p : String} (h : p ∈ removeBlob bs q ok) : p ∈ bs := by
  unfold removeBlob at h
  split at h
  · exact List.mem_of_mem_filter h
  · exact h

theorem removeBlob_removes {bs : List String} {p : String} {ok : String → Bool}
    (hok : ok p = true) : p ∉ removeBlob bs p ok := by
  intro hmem
  unfold removeBlob at hmem
  split at hmem
  · rw [List.mem_filter] at hmem
    simp at hmem
  · next hcond =>
    rw [Bool.and_eq_true] at hcond
    push_neg at hcond
    have hc : bs.contains p = true := List.elem_iff.mpr hmem
    exact absurd hok (hcond hc)

theorem foldl_removeBlob_subset (fs : List FileRow) (bs : List String)
    (ok : String → Bool) (p : String)
    (h : p ∈ fs.foldl (fun b f => removeBlob b f.storage_path ok) bs) : p ∈ bs := by
  induction fs generalizing bs with
  | nil => exact h
  | cons f fs ih => exact removeBlob_subset (ih _ h)

theorem foldl_removeBlob_removes (fs : List FileRow) (bs : List String)
    (ok : String → Bool) (f : FileRow) (hf : f ∈ fs)
    (hok : ok f.storage_path = true) :
    f.storage_path ∉ fs.foldl (fun b g => removeBlob b g.storage_path ok) bs := by
  induction fs generalizing bs with
  | nil => cases hf
  | cons g gs ih =>
    rcases List.mem_cons.mp hf with h | h
    · subst h
      intro hmem
      rw [List.foldl_cons] at hmem
      exact removeBlob_removes hok (foldl_removeBlob_subset gs _ ok _ hmem)
    · exact ih _ h

/-- C6: deleting a task succeeds for every byte-removal oracle (a failed
physical removal never aborts the deletion), removes the Task row and all
of that task's SubTask, Reminder and Attachment metadata rows while
keeping other tasks' rows, and the bytes of each of the task's
attachments whose removal call succeeds are gone from the byte store. -/
theorem C6_delete_task_cascade (db : DB) (a : Actor) (task_id : Nat)
    (removeOk : String → Bool) (t : Task)
    (hfind : findTask db task_id = some t)
    (hacc : a.role = Role.admin ∨ t.user_id = a.id) :
    (delete_task db a task_id removeOk).2 = .ok () ∧
    (∀ x ∈ (delete_task db a task_id removeOk).1.tasks, x.id ≠ task_id) ∧
    (∀ s ∈ (delete_task db a task_id removeOk).1.subtasks, s.task_id ≠ task_id) ∧
    (∀ f ∈ (delete_task db a task_id removeOk).1.files, f.task_id ≠ task_id) ∧
    (∀ r ∈ (delete_task db a task_id removeOk).1.reminders, r.task_id ≠ task_id) ∧
    (∀ x ∈ db.tasks, x.id ≠ task_id → x ∈ (delete_task db a task_id removeOk).1.tasks) ∧
    (∀ s ∈ db.subtasks, s.task_id ≠ task_id →
      s ∈ (delete_task db a task_id removeOk).1.subtasks) ∧
    (∀ f ∈ db.files, f.task_id = task_id → removeOk f.storage_path = true →
      f.storage_path ∉ (delete_task db a task_id removeOk).1.blobs) := by
  have hok := ensure_ok_of_allowed hacc
  unfold delete_task
  rw [hfind]
  simp only [hok, cascadeTaskDelete]
  refine ⟨trivial, ?_, ?_, ?_, ?_, ?_, ?_, ?_⟩
  · intro x hx
    rw [List.mem_filter] at hx
    simpa using hx.2
  · intro s hs
    rw [List.mem_filter] at hs
    simpa using hs.2
  · intro f hf
    rw [List.mem_filter] at hf
    simpa using hf.2
  · intro r hr
    rw [List.mem_filter] at hr
    simpa using hr.2
  · intro x hx hne
    rw [List.mem_filter]
    exact ⟨hx, by simpa using hne⟩
  · intro s hs hne
    rw [List.mem_filter]
    exact ⟨hs, by simpa using hne⟩
  · intro f hf heq hrm
    have hmem : f ∈ db.files.filter (fun g => g.task_id == task_id) :=
      List.mem_filter.mpr ⟨hf, by simp [heq]⟩
    exact foldl_removeBlob_removes _ _ removeOk f hmem hrm

theorem C6_delete_task_cascade_witness :
    findTask sampleDB 5 =
      some (Task.mk 5 1 "t" none (some (.parsed 100)) .todo (some 30)) ∧
    ((Actor.mk 1 .user).role = Role.admin ∨
      (Task.mk 5 1 "t" none (some (.parsed 100)) .todo (some 30)).user_id =
        (Actor.mk 1 .user).id) ∧
    (delete_task sampleDB ⟨1, .user⟩ 5 (fun _ => false)).2 = .ok () :=
  ⟨by decide, Or.inr rfl,
    (C6_delete_task_cascade sampleDB ⟨1, .user⟩ 5 (fun _ => false)
      (Task.mk 5 1 "t" none (some (.parsed 100)) .todo (some 30))
      (by decide) (Or.inr rfl)).1⟩

theorem insertTaskTag_taskTags_mem (db : DB) (a b : Nat) (x : Nat × Nat) :
    x ∈ (insertTaskTag db a b).taskTags ↔ x ∈ db.taskTags ∨ x = (a, b) := by
  unfold insertTaskTag
  split
  · next h =>
    constructor
    · exact Or.inl
    · rintro (h1 | rfl)
      · exact h1
      · exact List.elem_iff.mp h
  · simp [List.mem_append]

theorem insertTaskTag_fields (db : DB) (a b : Nat) :
    (insertTaskTag db a b).tasks = db.tasks ∧
    (insertTaskTag db a b).subtasks = db.subtasks ∧
    (insertTaskTag db a b).files = db.files ∧
    (insertTaskTag db a b).reminders = db.reminders ∧
    (insertTaskTag db a b).nextId = db.nextId ∧
    (insertTaskTag db a b).users = db.users ∧
    (insertTaskTag db a b).tags = db.tags ∧
    (insertTaskTag db a b).blobs = db.blobs := by
  unfold insertTaskTag
  split <;> exact ⟨rfl, rfl, rfl, rfl, rfl, rfl, rfl, rfl⟩

theorem foldl_insertTaskTag_pairs_mem (ls : List (Nat × Nat)) (db : DB)
    (nid : Nat) (x : Nat × Nat) :
    x ∈ (ls.foldl (fun d l => insertTaskTag d nid l.2) db).taskTags ↔
      x ∈ db.taskTags ∨ ∃ l ∈ ls, x = (nid, l.2) := by
  induction ls generalizing db with
  | nil => simp
  | cons l ls ih =>
    rw [List.foldl_cons, ih, insertTaskTag_taskTags_mem]
    constructor
    · rintro ((h | h) | ⟨l2, hl2, rfl⟩)
      · exact Or.inl h
      · exact Or.inr ⟨l, List.mem_cons_self l ls, h⟩
      · exact Or.inr ⟨l2, List.mem_cons_of_mem _ hl2, rfl⟩
    · rintro (h | ⟨l2, hl2, rfl⟩)
      · exact Or.inl (Or.inl h)
      · rcases List.mem_cons.mp hl2 with h | h
        · rw [h]
          exact Or.inl (Or.inr rfl)
        · exact Or.inr ⟨l2, h, rfl⟩

theorem foldl_insertTaskTag_pairs_fields (ls : List (Nat × Nat)) (db : DB)
    (nid : Nat) :
    ((ls.foldl (fun d l => insertTaskTag d nid l.2) db).tasks = db.tasks) ∧
    ((ls.foldl (fun d l => insertTaskTag d nid l.2) db).subtasks = db.subtasks) ∧
    ((ls.foldl (fun d l => insertTaskTag d nid l.2) db).files = db.files) ∧
    ((ls.foldl (fun d l => insertTaskTag d nid l.2) db).reminders = db.reminders) ∧
    ((ls.foldl (fun d l => insertTaskTag d nid l.2) db).nextId = db.nextId) := by
  induction ls generalizing db with
  | nil => exact ⟨rfl, rfl, rfl, rfl, rfl⟩
  | cons l ls ih =>
    rw [List.foldl_cons]
    have h1 := insertTaskTag_fields db nid l.2
    have h2 := ih (insertTaskTag db nid l.2)
    exact ⟨h2.1.trans h1.1, h2.2.1.trans h1.2.1, h2.2.2.1.trans h1.2.2.1,
      h2.2.2.2.1.trans h1.2.2.2.1, h2.2.2.2.2.trans h1.2.2.2.2.1⟩

/-- C7: generateNextOccurrence fails NotRepeating when the repeat
interval is unset and NoDueDate when the interval is set but due_at is
unset; on a source task with parseable due T and interval m it creates
and returns a new task with due T + m minutes, status todo, the same
title, description, owner and interval, and an association set equal by
value to the source's set at call time, held in fresh rows: the source's
own association rows are untouched. -/
theorem C7_generate_next (db : DB) (a : Actor) (task_id : Nat) (row : Task)
    (hwf : Wf db)
    (hfind : findTask db task_id = some row)
    (hacc : a.role = Role.admin ∨ row.user_id = a.id) :
    (row.repeat_interval_minutes = none →
      generate_next_occurrence db a task_id = (db, .error .NotRepeating)) ∧
    (∀ m : Int, row.repeat_interval_minutes = some m → 1 ≤ m →
      row.due_at = none →
      generate_next_occurrence db a task_id = (db, .error .NoDueDate)) ∧
    (∀ (m T : Int), row.repeat_interval_minutes = some m → 1 ≤ m →
      row.due_at = some (.parsed T) →
      (generate_next_occurrence db a task_id).2 = .ok db.nextId ∧
      (generate_next_occurrence db a task_id).1.tasks = db.tasks ++
        [{ id := db.nextId, user_id := row.user_id, title := row.title,
           description := row.description, due_at := some (.parsed (T + m)),
           status := .todo, repeat_interval_minutes := some m }] ∧
      (∀ g : Nat,
        (db.nextId, g) ∈ (generate_next_occurrence db a task_id).1.taskTags ↔
          (task_id, g) ∈ db.taskTags) ∧
      (∀ (t2 g : Nat), t2 ≠ db.nextId →
        ((t2, g) ∈ (generate_next_occurrence db a task_id).1.taskTags ↔
          (t2, g) ∈ db.taskTags))) := by
  have hok := ensure_ok_of_allowed hacc
  refine ⟨?_, ?_, ?_⟩
  · intro hm
    unfold generate_next_occurrence
    rw [hfind]
    simp [hok, hm]
  · intro m hm hm1 hdue
    have hne : (m == 0) = false := by
      rw [beq_eq_false_iff_ne]
      omega
    unfold generate_next_occurrence
    rw [hfind]
    simp [hok, hm, hdue, hne, truthyDate]
  · intro m T hm hm1 hdue
    have hne : (m == 0) = false := by
      rw [beq_eq_false_iff_ne]
      omega
    have key : generate_next_occurrence db a task_id =
        ((db.taskTags.filter (fun p => p.1 == task_id)).foldl
          (fun d l => insertTaskTag d db.nextId l.2)
          { db with
              tasks := db.tasks ++
                [{ id := db.nextId, user_id := row.user_id, title := row.title,
                   description := row.description,
                   due_at := some (.parsed (T + m)), status := .todo,
                   repeat_interval_minutes := some m }],
              nextId := db.nextId + 1 },
         .ok db.nextId) := by
      unfold generate_next_occurrence
      rw [hfind]
      simp only [hok, hm, hdue, Option.getD_some, hne, Bool.false_eq_true,
        if_false, truthyDate, Bool.not_true]
    rw [key]
    have hfields := foldl_insertTaskTag_pairs_fields
      (db.taskTags.filter (fun p => p.1 == task_id))
      { db with
          tasks := db.tasks ++
            [{ id := db.nextId, user_id := row.user_id, title := row.title,
               description := row.description,
               due_at := some (.parsed (T + m)), status := .todo,
               repeat_interval_minutes := some m }],
          nextId := db.nextId + 1 }
      db.nextId
    refine ⟨rfl, hfields.1, ?_, ?_⟩
    · intro g
      rw [foldl_insertTaskTag_pairs_mem]
      constructor
      · rintro (h | ⟨l, hl, heq⟩)
        · exact absurd (hwf.1.2.1 _ h) (lt_irrefl db.nextId)
        · rw [List.mem_filter] at hl
          have h1 : l.1 = task_id := by simpa using hl.2
          have h2 : l.2 = g := (congrArg Prod.snd heq).symm
          have : l = (task_id, g) := Prod.ext h1 h2
          rw [this] at hl
          exact hl.1
      · intro h
        refine Or.inr ⟨(task_id, g), List.mem_filter.mpr ⟨h, by simp⟩, rfl⟩
    · intro t2 g ht2
      rw [foldl_insertTaskTag_pairs_mem]
      constructor
      · rintro (h | ⟨l, hl, heq⟩)
        · exact h
        · exact absurd (congrArg Prod.fst heq) ht2
      · exact fun h => Or.inl h

theorem C7_generate_next_witness :
    Wf sampleDB ∧
    findTask sampleDB 5 =
      some (Task.mk 5 1 "t" none (some (.parsed 100)) .todo (some 30)) ∧
    ((Actor.mk 1 .user).role = Role.admin ∨
      (Task.mk 5 1 "t" none (some (.parsed 100)) .todo (some 30)).user_id =
        (Actor.mk 1 .user).id) ∧
    (generate_next_occurrence sampleDB ⟨1, .user⟩ 5).2 = .ok sampleDB.nextId :=
  ⟨by decide, by decide, Or.inr rfl,
    ((C7_generate_next sampleDB ⟨1, .user⟩ 5
      (Task.mk 5 1 "t" none (some (.parsed 100)) .todo (some 30))
      (by decide) (by decide) (Or.inr rfl)).2.2 30 100 rfl (by decide) rfl).1⟩

theorem insertInlineSubtasks_spec (subs : List SubTaskInlineCreate)
    (db : DB) (tid uid : Nat) :
    ∃ rows : List SubTask,
      (insertInlineSubtasks db tid uid subs).subtasks = db.subtasks ++ rows ∧
      rows.map (fun s => (s.title, s.is_done, s.task_id, s.user_id)) =
        subs.map (fun st => ((pyStrip st.title), st.is_done, tid, uid)) := by
  induction subs generalizing db with
  | nil => exact ⟨[], by simp [insertInlineSubtasks], rfl⟩
  | cons st subs ih =>
    obtain ⟨rows, h1, h2⟩ := ih
      { db with
          subtasks := db.subtasks ++
            [{ id := db.nextId, task_id := tid, user_id := uid,
               title := (pyStrip st.title), is_done := st.is_done }],
          nextId := db.nextId + 1 }
    refine ⟨{ id := db.nextId, task_id := tid, user_id := uid,
              title := (pyStrip st.title), is_done := st.is_done } :: rows, ?_, ?_⟩
    · unfold insertInlineSubtasks at h1 ⊢
      rw [List.foldl_cons, h1]
      simp
    · simpa using h2

/-- C10: creating a task with inline subtasks persists at most the first
50 entries of the empty-trimmed-title-filtered subset, in their original
relative order, silently truncating further entries with no error; each
persisted row carries the new task's id and the target owner's id. -/
theorem C10_inline_subtasks (db : DB) (a : Actor) (data : TaskCreate)
    (subs : List SubTaskInlineCreate)
    (hvd : data.valid = true)
    (hsubs : data.subtasks = some subs)
    (htags : data.tag_ids = none) :
    (create_task db a none data).2 = .ok db.nextId ∧
    ∃ rows : List SubTask,
      (create_task db a none data).1.subtasks = db.subtasks ++ rows ∧
      rows.map (fun s => (s.title, s.is_done, s.task_id, s.user_id)) =
        ((subs.filter (fun st => !(pyStrip st.title).isEmpty)).take 50).map
          (fun st => ((pyStrip st.title), st.is_done, db.nextId, a.id)) ∧
      rows.length ≤ 50 := by
  by_cases hE : subs.isEmpty
  · have hnil : subs = [] := List.isEmpty_iff.mp hE
    constructor
    · unfold create_task sync_task_tags
      rw [hsubs, htags]
      simp [hvd, hE]
    · refine ⟨[], ?_, ?_, by simp⟩
      · unfold create_task sync_task_tags
        rw [hsubs, htags]
        simp [hvd, hE]
      · rw [hnil]
        simp
  · have hkey : create_task db a none data =
        (insertInlineSubtasks
          { db with
              tasks := db.tasks ++
                [{ id := db.nextId, user_id := a.id, title := (pyStrip data.title),
                   description := data.description,
                   due_at := data.due_at.map DateVal.parsed,
                   status := data.status,
                   repeat_interval_minutes := data.repeat_interval_minutes }],
              nextId := db.nextId + 1 }
          db.nextId a.id ((subs.filter (fun st => !(pyStrip st.title).isEmpty)).take 50),
         .ok db.nextId) := by
      unfold create_task sync_task_tags
      rw [hsubs, htags]
      simp [hvd, hE]
    obtain ⟨rows, h1, h2⟩ := insertInlineSubtasks_spec
      ((subs.filter (fun st => !(pyStrip st.title).isEmpty)).take 50)
      { db with
          tasks := db.tasks ++
            [{ id := db.nextId, user_id := a.id, title := (pyStrip data.title),
               description := data.description,
               due_at := data.due_at.map DateVal.parsed,
               status := data.status,
               repeat_interval_minutes := data.repeat_interval_minutes }],
          nextId := db.nextId + 1 }
      db.nextId a.id
    rw [hkey]
    refine ⟨rfl, rows, h1, h2, ?_⟩
    have hlen : rows.length =
        ((subs.filter (fun st => !(pyStrip st.title).isEmpty)).take 50).length := by
      have := congrArg List.length h2
      simpa using this
    rw [hlen]
    exact List.length_take_le 50 _

theorem C10_inline_subtasks_witness :
    (TaskCreate.mk "a" none none .todo none none
        (some (List.replicate 60 (SubTaskInlineCreate.mk "s" false)))).valid = true ∧
    (TaskCreate.mk "a" none none .todo none none
        (some (List.replicate 60 (SubTaskInlineCreate.mk "s" false)))).subtasks =
      some (List.replicate 60 (SubTaskInlineCreate.mk "s" false)) ∧
    (TaskCreate.mk "a" none none .todo none none
        (some (List.replicate 60 (SubTaskInlineCreate.mk "s" false)))).tag_ids = none ∧
    (create_task sampleDB ⟨1, .user⟩ none
      (TaskCreate.mk "a" none none .todo none none
        (some (List.replicate 60 (SubTaskInlineCreate.mk "s" false))))).2 =
      .ok sampleDB.nextId ∧
    (create_task sampleDB ⟨1, .user⟩ none
      (TaskCreate.mk "a" none none .todo none none
        (some (List.replicate 60 (SubTaskInlineCreate.mk "s" false))))).1.subtasks.length =
      sampleDB.subtasks.length + 50 :=
  ⟨by decide, by decide, by decide,
    (C10_inline_subtasks sampleDB ⟨1, .user⟩
      (TaskCreate.mk "a" none none .todo none none
        (some (List.replicate 60 (SubTaskInlineCreate.mk "s" false))))
      (List.replicate 60 (SubTaskInlineCreate.mk "s" false))
      (by decide) (by decide) (by decide)).1,
    by decide⟩

/-- C1: for every modeled read or write operation aimed at an existing
resource (Task, SubTask, Tag, Attachment or Reminder) whose owner is b,
a non-admin actor with id different from b receives AccessDenied with
the store untouched; and the shared access gate allows an actor exactly
when their role is admin or their id equals the resource owner's id. -/
theorem C1_access_control (op : Op) (a : Actor) (db : DB) (b : Nat)
    (hrole : a.role ≠ Role.admin)
    (hown : opOwner op db = some b)
    (hdiff : b ≠ a.id)
    (hval : opValid op = true) :
    runOp op a db = (db, .error .AccessDenied) ∧
    (∀ (uid : Nat) (a2 : Actor),
      ensure_task_access uid a2 = .ok () ↔ (a2.role = Role.admin ∨ a2.id = uid)) := by
  refine ⟨?_, fun uid a2 => ensure_ok_iff uid a2⟩
  cases op with
  | createTask uid data =>
    simp only [opOwner] at hown
    exact Option.noConfusion hown
  | getTask i =>
    simp only [opOwner, Option.map_eq_some'] at hown
    obtain ⟨t, hft, hub⟩ := hown
    have he : ensure_task_access t.user_id a = .error .AccessDenied :=
      ensure_denied hrole (by rw [hub]; exact hdiff)
    have hg : get_task db a i = (db, .error .AccessDenied) := by
      unfold get_task
      simp only [hft, he]
    simp only [runOp, hg]
    rfl
  | updateTask i d =>
    simp only [opOwner, Option.map_eq_some'] at hown
    obtain ⟨t, hft, hub⟩ := hown
    simp only [opValid] at hval
    have he : ensure_task_access t.user_id a = .error .AccessDenied :=
      ensure_denied hrole (by rw [hub]; exact hdiff)
    have hg : update_task db a i d = (db, .error .AccessDenied) := by
      unfold update_task
      simp only [hval, Bool.not_true, Bool.false_eq_true, if_false, hft, he]
    simp only [runOp, hg]
  | deleteTask i ok =>
    simp only [opOwner, Option.map_eq_some'] at hown
    obtain ⟨t, hft, hub⟩ := hown
    have he : ensure_task_access t.user_id a = .error .AccessDenied :=
      ensure_denied hrole (by rw [hub]; exact hdiff)
    have hg : delete_task db a i ok = (db, .error .AccessDenied) := by
      unfold delete_task
      simp only [hft, he]
    simp only [runOp, hg]
  | generateNext i =>
    simp only [opOwner, Option.map_eq_some'] at hown
    obtain ⟨t, hft, hub⟩ := hown
    have he : ensure_task_access t.user_id a = .error .AccessDenied :=
      ensure_denied hrole (by rw [hub]; exact hdiff)
    have hg : generate_next_occurrence db a i = (db, .error .AccessDenied) := by
      unfold generate_next_occurrence
      simp only [hft, he]
    simp only [runOp, hg]
    rfl
  | createTag uid name =>
    simp only [opOwner] at hown
    exact Option.noConfusion hown
  | updateTag i name =>
    simp only [opOwner, Option.map_eq_some'] at hown
    obtain ⟨t, hft, hub⟩ := hown
    simp only [opValid] at hval
    have hg : update_tag db a i name = (db, .error .AccessDenied) := by
      unfold update_tag
      simp only [hval, Bool.not_true, Bool.false_eq_true, if_false, hft]
      rw [if_pos ⟨by rw [hub]; exact hdiff, hrole⟩]
    simp only [runOp, hg]
  | deleteTag i =>
    simp only [opOwner, Option.map_eq_some'] at hown
    obtain ⟨t, hft, hub⟩ := hown
    have hg : delete_tag db a i = (db, .error .AccessDenied) := by
      unfold delete_tag
      simp only [hft]
      rw [if_pos ⟨by rw [hub]; exact hdiff, hrole⟩]
    simp only [runOp, hg]
  | createSubtask d =>
    simp only [opOwner, Option.map_eq_some'] at hown
    obtain ⟨t, hft, hub⟩ := hown
    simp only [opValid] at hval
    have he : ensure_task_access t.user_id a = .error .AccessDenied :=
      ensure_denied hrole (by rw [hub]; exact hdiff)
    have hg : create_subtask db a d = (db, .error .AccessDenied) := by
      unfold create_subtask
      simp only [hval, Bool.not_true, Bool.false_eq_true, if_false, hft, he]
    simp only [runOp, hg]
    rfl
  | listSubtasks i =>
    simp only [opOwner, Option.map_eq_some'] at hown
    obtain ⟨t, hft, hub⟩ := hown
    have he : ensure_task_access t.user_id a = .error .AccessDenied :=
      ensure_denied hrole (by rw [hub]; exact hdiff)
    have hg : list_subtasks db a i = (db, .error .AccessDenied) := by
      unfold list_subtasks
      simp only [hft, he]
    simp only [runOp, hg]
    rfl
  | updateSubtask i d =>
    simp only [opOwner, Option.bind_eq_some, Option.map_eq_some'] at hown
    obtain ⟨s, hfs, t, hft, hub⟩ := hown
    simp only [opValid] at hval
    have he : ensure_task_access t.user_id a = .error .AccessDenied :=
      ensure_denied hrole (by rw [hub]; exact hdiff)
    have hg : update_subtask db a i d = (db, .error .AccessDenied) := by
      unfold update_subtask
      simp only [hval, Bool.not_true, Bool.false_eq_true, if_false, hfs, hft, he]
    simp only [runOp, hg]
  | deleteSubtask i =>
    simp only [opOwner, Option.bind_eq_some, Option.map_eq_some'] at hown
    obtain ⟨s, hfs, t, hft, hub⟩ := hown
    have he : ensure_task_access t.user_id a = .error .AccessDenied :=
      ensure_denied hrole (by rw [hub]; exact hdiff)
    have hg : delete_subtask db a i = (db, .error .AccessDenied) := by
      unfold delete_subtask
      simp only [hfs, hft, he]
    simp only [runOp, hg]
  | uploadFile i fn ct sz p =>
    simp only [opOwner, Option.map_eq_some'] at hown
    obtain ⟨t, hft, hub⟩ := hown
    have he : ensure_task_access t.user_id a = .error .AccessDenied :=
      ensure_denied hrole (by rw [hub]; exact hdiff)
    have hg : upload_file db a i fn ct sz p = (db, .error .AccessDenied) := by
      unfold upload_file
      simp only [hft, he]
    simp only [runOp, hg]
    rfl
  | listFiles i =>
    simp only [opOwner, Option.map_eq_some'] at hown
    obtain ⟨t, hft, hub⟩ := hown
    have he : ensure_task_access t.user_id a = .error .AccessDenied :=
      ensure_denied hrole (by rw [hub]; exact hdiff)
    have hg : list_files db a i = (db, .error .AccessDenied) := by
      unfold list_files
      simp only [hft, he]
    simp only [runOp, hg]
    rfl
  | downloadFile i =>
    simp only [opOwner, Option.bind_eq_some, Option.map_eq_some'] at hown
    obtain ⟨f, hff, t, hft, hub⟩ := hown
    have he : ensure_task_access t.user_id a = .error .AccessDenied :=
      ensure_denied hrole (by rw [hub]; exact hdiff)
    have hg : download_file db a i = (db, .error .AccessDenied) := by
      unfold download_file
      simp only [hff, hft, he]
    simp only [runOp, hg]
    rfl
  | deleteFile i ok =>
    simp only [opOwner, Option.bind_eq_some, Option.map_eq_some'] at hown
    obtain ⟨f, hff, t, hft, hub⟩ := hown
    have he : ensure_task_access t.user_id a = .error .AccessDenied :=
      ensure_denied hrole (by rw [hub]; exact hdiff)
    have hg : delete_file db a i ok = (db, .error .AccessDenied) := by
      unfold delete_file
      simp only [hff, hft, he]
    simp only [runOp, hg]
  | createReminder i d now =>
    simp only [opOwner, Option.map_eq_some'] at hown
    obtain ⟨t, hft, hub⟩ := hown
    simp only [opValid] at hval
    have he : ensure_task_access t.user_id a = .error .AccessDenied :=
      ensure_denied hrole (by rw [hub]; exact hdiff)
    have hg : create_reminder db a i d now = (db, .error .AccessDenied) := by
      unfold create_reminder
      simp only [hval, Bool.not_true, Bool.false_eq_true, if_false, hft, he]
    simp only [runOp, hg]
    rfl
  | listReminders i =>
    simp only [opOwner, Option.map_eq_some'] at hown
    obtain ⟨t, hft, hub⟩ := hown
    have he : ensure_task_access t.user_id a = .error .AccessDenied :=
      ensure_denied hrole (by rw [hub]; exact hdiff)
    have hg : list_reminders db a i = (db, .error .AccessDenied) := by
      unfold list_reminders
      simp only [hft, he]
    simp only [runOp, hg]
    rfl
  | updateReminder i ri d now =>
    simp only [opOwner, Option.map_eq_some'] at hown
    obtain ⟨t, hft, hub⟩ := hown
    simp only [opValid] at hval
    have he : ensure_task_access t.user_id a = .error .AccessDenied :=
      ensure_denied hrole (by rw [hub]; exact hdiff)
    have hg : update_reminder db a i ri d now = (db, .error .AccessDenied) := by
      unfold update_reminder
      simp only [hval, Bool.not_true, Bool.false_eq_true, if_false, hft, he]
    simp only [runOp, hg]
  | deleteReminder i ri =>
    simp only [opOwner, Option.map_eq_some'] at hown
    obtain ⟨t, hft, hub⟩ := hown
    have he : ensure_task_access t.user_id a = .error .AccessDenied :=
      ensure_denied hrole (by rw [hub]; exact hdiff)
    have hg : delete_reminder db a i ri = (db, .error .AccessDenied) := by
      unfold delete_reminder
      simp only [hft, he]
    simp only [runOp, hg]

theorem C1_access_control_witness :
    (Actor.mk 1 .user).role ≠ Role.admin ∧
    opOwner (.getTask 6) sampleDB = some 2 ∧
    (2 : Nat) ≠ (Actor.mk 1 .user).id ∧
    opValid (.getTask 6) = true ∧
    runOp (.getTask 6) ⟨1, .user⟩ sampleDB = (sampleDB, .error .AccessDenied) :=
  ⟨by decide, by decide, by decide, by decide,
    (C1_access_control (.getTask 6) ⟨1, .user⟩ sampleDB 2
      (by decide) (by decide) (by decide) (by decide)).1⟩

theorem findTask_mem {db : DB} {i : Nat} {t : Task}
    (h : findTask db i = some t) : t ∈ db.tasks ∧ t.id = i := by
  unfold findTask at h
  refine ⟨List.mem_of_find?_eq_some h, ?_⟩
  have := List.find?_some h
  simpa using this

theorem task_id_unique {db : DB} (hnd : (db.tasks.map Task.id).Nodup)
    {t t2 : Task} (h1 : t ∈ db.tasks) (h2 : t2 ∈ db.tasks) (h : t.id = t2.id) :
    t = t2 :=
  List.inj_on_of_nodup_map hnd h1 h2 h

/-- Well-formedness survives shrinking the rows and growing the counter:
any state whose tasks are a sublist, whose child and association rows are
subsets, and whose counter did not decrease is still well-formed. -/
theorem wf_of_sub {db1 db2 : DB} (hwf : Wf db1)
    (ht : db2.tasks.Sublist db1.tasks)
    (hs : ∀ s ∈ db2.subtasks, s ∈ db1.subtasks)
    (hf : ∀ f ∈ db2.files, f ∈ db1.files)
    (hr : ∀ r ∈ db2.reminders, r ∈ db1.reminders)
    (htt : ∀ p ∈ db2.taskTags, p ∈ db1.taskTags)
    (hn : db1.nextId ≤ db2.nextId) : Wf db2 := by
  obtain ⟨⟨hft, httf, hfs, hff, hfr⟩, hnd, hcs, hcf, hcr⟩ := hwf
  refine ⟨⟨?_, ?_, ?_, ?_, ?_⟩, ?_, ?_, ?_, ?_⟩
  · exact fun t h => lt_of_lt_of_le (hft t (ht.subset h)) hn
  · exact fun p h => lt_of_lt_of_le (httf p (htt p h)) hn
  · exact fun s h => lt_of_lt_of_le (hfs s (hs s h)) hn
  · exact fun f h => lt_of_lt_of_le (hff f (hf f h)) hn
  · exact fun r h => lt_of_lt_of_le (hfr r (hr r h)) hn
  · exact List.Nodup.sublist (ht.map Task.id) hnd
  · exact fun s h t ht2 he => hcs s (hs s h) t (ht.subset ht2) he
  · exact fun f h t ht2 he => hcf f (hf f h) t (ht.subset ht2) he
  · exact fun r h t ht2 he => hcr r (hr r h) t (ht.subset ht2) he

/-- Inserting a fresh Task row keeps the store well-formed. -/
theorem wf_append_task {db : DB} {t : Task} (hwf : Wf db)
    (hid : t.id = db.nextId) :
    Wf { db with tasks := db.tasks ++ [t], nextId := db.nextId + 1 } := by
  obtain ⟨⟨hft, httf, hfs, hff, hfr⟩, hnd, hcs, hcf, hcr⟩ := hwf
  refine ⟨⟨?_, ?_, ?_, ?_, ?_⟩, ?_, ?_, ?_, ?_⟩
  · intro x hx
    rcases List.mem_append.mp hx with h | h
    · exact Nat.lt_succ_of_lt (hft x h)
    · rw [List.mem_singleton.mp h, hid]
      exact Nat.lt_succ_self _
  · exact fun p hp => Nat.lt_succ_of_lt (httf p hp)
  · exact fun s hs => Nat.lt_succ_of_lt (hfs s hs)
  · exact fun f hf => Nat.lt_succ_of_lt (hff f hf)
  · exact fun r hr => Nat.lt_succ_of_lt (hfr r hr)
  · rw [List.map_append, List.nodup_append]
    refine ⟨hnd, List.nodup_singleton _, ?_⟩
    intro x hx hx2
    rw [List.map_singleton, List.mem_singleton] at hx2
    obtain ⟨t2, ht2, rfl⟩ := List.mem_map.mp hx
    have := hft t2 ht2
    rw [hx2, hid] at this
    exact lt_irrefl _ this
  · intro s hs t2 ht2 heq
    rcases List.mem_append.mp ht2 with h | h
    · exact hcs s hs t2 h heq
    · exfalso
      have h1 := hfs s hs
      rw [List.mem_singleton.mp h] at heq
      rw [← heq, hid] at h1
      exact lt_irrefl _ h1
  · intro f hf t2 ht2 heq
    rcases List.mem_append.mp ht2 with h | h
    · exact hcf f hf t2 h heq
    · exfalso
      have h1 := hff f hf
      rw [List.mem_singleton.mp h] at heq
      rw [← heq, hid] at h1
      exact lt_irrefl _ h1
  · intro r hr t2 ht2 heq
    rcases List.mem_append.mp ht2 with h | h
    · exact hcr r hr t2 h heq
    · exfalso
      have h1 := hfr r hr
      rw [List.mem_singleton.mp h] at heq
      rw [← heq, hid] at h1
      exact lt_irrefl _ h1

/-- Inserting a SubTask row whose task reference and owner come from an
existing parent Task keeps the store well-formed. -/
theorem wf_append_subtask {db : DB} {t : Task} {s : SubTask} (hwf : Wf db)
    (hmem : t ∈ db.tasks) (hti : s.task_id = t.id) (hui : s.user_id = t.user_id) :
    Wf { db with subtasks := db.subtasks ++ [s], nextId := db.nextId + 1 } := by
  obtain ⟨⟨hft, httf, hfs, hff, hfr⟩, hnd, hcs, hcf, hcr⟩ := hwf
  refine ⟨⟨?_, ?_, ?_, ?_, ?_⟩, hnd, ?_, hcf, hcr⟩
  · exact fun x hx => Nat.lt_succ_of_lt (hft x hx)
  · exact fun p hp => Nat.lt_succ_of_lt (httf p hp)
  · intro x hx
    rcases List.mem_append.mp hx with h | h
    · exact Nat.lt_succ_of_lt (hfs x h)
    · rw [List.mem_singleton.mp h, hti]
      exact Nat.lt_succ_of_lt (hft t hmem)
  · exact fun f hf => Nat.lt_succ_of_lt (hff f hf)
  · exact fun r hr => Nat.lt_succ_of_lt (hfr r hr)
  · intro x hx t2 ht2 heq
    rcases List.mem_append.mp hx with h | h
    · exact hcs x h t2 ht2 heq
    · rw [List.mem_singleton.mp h] at heq ⊢
      rw [hti] at heq
      rw [task_id_unique hnd ht2 hmem heq]
      exact hui

/-- Inserting an Attachment row whose task reference and owner come from
an existing parent Task keeps the store well-formed (the byte store may
change arbitrarily; it does not participate in the invariant). -/
theorem wf_append_file {db : DB} {t : Task} {f : FileRow} (hwf : Wf db)
    (hmem : t ∈ db.tasks) (hti : f.task_id = t.id) (hui : f.user_id = t.user_id)
    (bl : List String) :
    Wf { db with blobs := bl, files := db.files ++ [f], nextId := db.nextId + 1 } := by
  obtain ⟨⟨hft, httf, hfs, hff, hfr⟩, hnd, hcs, hcf, hcr⟩ := hwf
  refine ⟨⟨?_, ?_, ?_, ?_, ?_⟩, hnd, hcs, ?_, hcr⟩
  · exact fun x hx => Nat.lt_succ_of_lt (hft x hx)
  · exact fun p hp => Nat.lt_succ_of_lt (httf p hp)
  · exact fun s hs => Nat.lt_succ_of_lt (hfs s hs)
  · intro x hx
    rcases List.mem_append.mp hx with h | h
    · exact Nat.lt_succ_of_lt (hff x h)
    · rw [List.mem_singleton.mp h, hti]
      exact Nat.lt_succ_of_lt (hft t hmem)
  · exact fun r hr => Nat.lt_succ_of_lt (hfr r hr)
  · intro x hx t2 ht2 heq
    rcases List.mem_append.mp hx with h | h
    · exact hcf x h t2 ht2 heq
    · rw [List.mem_singleton.mp h] at heq ⊢
      rw [hti] at heq
      rw [task_id_unique hnd ht2 hmem heq]
      exact hui

/-- Inserting a Reminder row whose task reference and owner come from an
existing parent Task keeps the store well-formed. -/
theorem wf_append_reminder {db : DB} {t : Task} {r : Reminder} (hwf : Wf db)
    (hmem : t ∈ db.tasks) (hti : r.task_id = t.id) (hui : r.user_id = t.user_id) :
    Wf { db with reminders := db.reminders ++ [r], nextId := db.nextId + 1 } := by
  obtain ⟨⟨hft, httf, hfs, hff, hfr⟩, hnd, hcs, hcf, hcr⟩ := hwf
  refine ⟨⟨?_, ?_, ?_, ?_, ?_⟩, hnd, hcs, hcf, ?_⟩
  · exact fun x hx => Nat.lt_succ_of_lt (hft x hx)
  · exact fun p hp => Nat.lt_succ_of_lt (httf p hp)
  · exact fun s hs => Nat.lt_succ_of_lt (hfs s hs)
  · exact fun f hf => Nat.lt_succ_of_lt (hff f hf)
  · intro x hx
    rcases List.mem_append.mp hx with h | h
    · exact Nat.lt_succ_of_lt (hfr x h)
    · rw [List.mem_singleton.mp h, hti]
      exact Nat.lt_succ_of_lt (hft t hmem)
  · intro x hx t2 ht2 heq
    rcases List.mem_append.mp hx with h | h
    · exact hcr x h t2 ht2 heq
    · rw [List.mem_singleton.mp h] at heq ⊢
      rw [hti] at heq
      rw [task_id_unique hnd ht2 hmem heq]
      exact hui

/-- Rewriting Task rows in place without touching id or owner (the UPDATE
statements of update_task) keeps the store well-formed. -/
theorem wf_map_tasks {db : DB} (g : Task → Task)
    (hid : ∀ t, (g t).id = t.id) (huid : ∀ t, (g t).user_id = t.user_id)
    (hwf : Wf db) : Wf { db with tasks := db.tasks.map g } := by
  obtain ⟨⟨hft, httf, hfs, hff, hfr⟩, hnd, hcs, hcf, hcr⟩ := hwf
  refine ⟨⟨?_, httf, hfs, hff, hfr⟩, ?_, ?_, ?_, ?_⟩
  · intro x hx
    obtain ⟨t, ht, rfl⟩ := List.mem_map.mp hx
    rw [hid]
    exact hft t ht
  · rw [List.map_map]
    have he : db.tasks.map (Task.id ∘ g) = db.tasks.map Task.id :=
      List.map_congr_left (fun t _ => hid t)
    rw [he]
    exact hnd
  · intro s hs x hx heq
    obtain ⟨t, ht, rfl⟩ := List.mem_map.mp hx
    rw [hid] at heq
    rw [huid]
    exact hcs s hs t ht heq
  · intro f hf x hx heq
    obtain ⟨t, ht, rfl⟩ := List.mem_map.mp hx
    rw [hid] at heq
    rw [huid]
    exact hcf f hf t ht heq
  · intro r hr x hx heq
    obtain ⟨t, ht, rfl⟩ := List.mem_map.mp hx
    rw [hid] at heq
    rw [huid]
    exact hcr r hr t ht heq

/-- Rewriting SubTask rows in place without touching their task reference
or owner keeps the store well-formed. -/
theorem wf_map_subtasks {db : DB} (g : SubTask → SubTask)
    (hti : ∀ s, (g s).task_id = s.task_id) (hui : ∀ s, (g s).user_id = s.user_id)
    (hwf : Wf db) : Wf { db with subtasks := db.subtasks.map g } := by
  obtain ⟨⟨hft, httf, hfs, hff, hfr⟩, hnd, hcs, hcf, hcr⟩ := hwf
  refine ⟨⟨hft, httf, ?_, hff, hfr⟩, hnd, ?_, hcf, hcr⟩
  · intro x hx
    obtain ⟨s, hs, rfl⟩ := List.mem_map.mp hx
    rw [hti]
    exact hfs s hs
  · intro x hx t ht heq
    obtain ⟨s, hs, rfl⟩ := List.mem_map.mp hx
    rw [hti] at heq
    rw [hui]
    exact hcs s hs t ht heq

/-- Rewriting Reminder rows in place without touching their task
reference or owner keeps the store well-formed. -/
theorem wf_map_reminders {db : DB} (g : Reminder → Reminder)
    (hti : ∀ r, (g r).task_id = r.task_id) (hui : ∀ r, (g r).user_id = r.user_id)
    (hwf : Wf db) : Wf { db with reminders := db.reminders.map g } := by
  obtain ⟨⟨hft, httf, hfs, hff, hfr⟩, hnd, hcs, hcf, hcr⟩ := hwf
  refine ⟨⟨hft, httf, hfs, hff, ?_⟩, hnd, hcs, hcf, ?_⟩
  · intro x hx
    obtain ⟨r, hr, rfl⟩ := List.mem_map.mp hx
    rw [hti]
    exact hfr r hr
  · intro x hx t ht heq
    obtain ⟨r, hr, rfl⟩ := List.mem_map.mp hx
    rw [hti] at heq
    rw [hui]
    exact hcr r hr t ht heq

theorem wf_insertTaskTag {db : DB} {a b : Nat} (hwf : Wf db)
    (ha : a < db.nextId) : Wf (insertTaskTag db a b) := by
  obtain ⟨⟨hft, httf, hfs, hff, hfr⟩, hnd, hcs, hcf, hcr⟩ := hwf
  unfold insertTaskTag
  split
  · exact ⟨⟨hft, httf, hfs, hff, hfr⟩, hnd, hcs, hcf, hcr⟩
  · refine ⟨⟨hft, ?_, hfs, hff, hfr⟩, hnd, hcs, hcf, hcr⟩
    intro p hp
    rcases List.mem_append.mp hp with h | h
    · exact httf p h
    · rw [List.mem_singleton.mp h]
      exact ha

theorem foldl_insertTaskTag_ids_fields (ids : List Nat) (db : DB) (tid : Nat) :
    ((ids.foldl (fun d t2 => insertTaskTag d tid t2) db).tasks = db.tasks) ∧
    ((ids.foldl (fun d t2 => insertTaskTag d tid t2) db).subtasks = db.subtasks) ∧
    ((ids.foldl (fun d t2 => insertTaskTag d tid t2) db).files = db.files) ∧
    ((ids.foldl (fun d t2 => insertTaskTag d tid t2) db).reminders = db.reminders) ∧
    ((ids.foldl (fun d t2 => insertTaskTag d tid t2) db).nextId = db.nextId) := by
  induction ids generalizing db with
  | nil => exact ⟨rfl, rfl, rfl, rfl, rfl⟩
  | cons i ids ih =>
    rw [List.foldl_cons]
    have h1 := insertTaskTag_fields db tid i
    have h2 := ih (insertTaskTag db tid i)
    exact ⟨h2.1.trans h1.1, h2.2.1.trans h1.2.1, h2.2.2.1.trans h1.2.2.1,
      h2.2.2.2.1.trans h1.2.2.2.1, h2.2.2.2.2.trans h1.2.2.2.2.1⟩

theorem wf_foldl_insertTaskTag_ids (ids : List Nat) (db : DB) (tid : Nat)
    (hwf : Wf db) (hlt : tid < db.nextId) :
    Wf (ids.foldl (fun d t2 => insertTaskTag d tid t2) db) := by
  induction ids generalizing db with
  | nil => exact hwf
  | cons i ids ih =>
    rw [List.foldl_cons]
    refine ih (insertTaskTag db tid i) (wf_insertTaskTag hwf hlt) ?_
    rw [(insertTaskTag_fields db tid i).2.2.2.2.1]
    exact hlt

theorem wf_foldl_insertTaskTag_pairs (ls : List (Nat × Nat)) (db : DB)
    (nid : Nat) (hwf : Wf db) (hlt : nid < db.nextId) :
    Wf (ls.foldl (fun d l => insertTaskTag d nid l.2) db) := by
  induction ls generalizing db with
  | nil => exact hwf
  | cons l ls ih =>
    rw [List.foldl_cons]
    refine ih (insertTaskTag db nid l.2) (wf_insertTaskTag hwf hlt) ?_
    rw [(insertTaskTag_fields db nid l.2).2.2.2.2.1]
    exact hlt

theorem wf_sync_task_tags (db : DB) (task_id uid : Nat)
    (tag_ids : Option (List Nat)) (hwf : Wf db) (hlt : task_id < db.nextId) :
    Wf (sync_task_tags db task_id uid tag_ids).1 := by
  unfold sync_task_tags
  match tag_ids with
  | none => exact hwf
  | some ids =>
    dsimp only
    split
    · exact hwf
    · refine wf_foldl_insertTaskTag_ids ids _ task_id ?_ hlt
      refine wf_of_sub hwf (List.Sublist.refl _) (fun s hs => hs) (fun f hf => hf)
        (fun r hr => hr) ?_ (le_refl _)
      exact fun p hp => List.mem_of_mem_filter hp

theorem sync_task_tags_fields (db : DB) (task_id uid : Nat)
    (tag_ids : Option (List Nat)) :
    ((sync_task_tags db task_id uid tag_ids).1.tasks = db.tasks) ∧
    ((sync_task_tags db task_id uid tag_ids).1.subtasks = db.subtasks) ∧
    ((sync_task_tags db task_id uid tag_ids).1.nextId = db.nextId) := by
  unfold sync_task_tags
  match tag_ids with
  | none => exact ⟨rfl, rfl, rfl⟩
  | some ids =>
    dsimp only
    split
    · exact ⟨rfl, rfl, rfl⟩
    · have h := foldl_insertTaskTag_ids_fields ids
        { db with taskTags := db.taskTags.filter (fun p => p.1 ≠ task_id) } task_id
      exact ⟨h.1, h.2.1, h.2.2.2.2⟩

theorem wf_insertInlineSubtasks (subs : List SubTaskInlineCreate)
    (db : DB) (tid uid : Nat) (hwf : Wf db) (t : Task)
    (hmem : t ∈ db.tasks) (hid : t.id = tid) (huid : t.user_id = uid) :
    Wf (insertInlineSubtasks db tid uid subs) := by
  induction subs generalizing db with
  | nil => exact hwf
  | cons st subs ih =>
    unfold insertInlineSubtasks
    rw [List.foldl_cons]
    exact ih _ (wf_append_subtask hwf hmem hid.symm huid.symm) hmem

theorem wf_create_task (db : DB) (a : Actor) (uid : Option Nat)
    (data : TaskCreate) (hwf : Wf db) : Wf (create_task db a uid data).1 := by
  unfold create_task
  split
  · exact hwf
  · dsimp only
    split
    · exact hwf
    · rename_i target heq
      split
      · rename_i db2 e heq2
        have h1 := congrArg Prod.fst heq2
        dsimp only at h1
        rw [← h1]
        exact wf_sync_task_tags _ _ _ _ (wf_append_task hwf rfl) (Nat.lt_succ_self _)
      · rename_i db2 u heq2
        have h1 := congrArg Prod.fst heq2
        dsimp only at h1
        have hwf2 : Wf db2 := by
          rw [← h1]
          exact wf_sync_task_tags _ _ _ _ (wf_append_task hwf rfl) (Nat.lt_succ_self _)
        have htasks : db2.tasks = db.tasks ++
            [{ id := db.nextId, user_id := target, title := pyStrip data.title,
               description := data.description,
               due_at := data.due_at.map DateVal.parsed, status := data.status,
               repeat_interval_minutes := data.repeat_interval_minutes }] := by
          rw [← h1]
          exact (sync_task_tags_fields _ _ _ _).1
        split
        · exact hwf2
        · split
          · exact hwf2
          · refine wf_insertInlineSubtasks _ db2 _ _ hwf2
              { id := db.nextId, user_id := target, title := pyStrip data.title,
                description := data.description,
                due_at := data.due_at.map DateVal.parsed, status := data.status,
                repeat_interval_minutes := data.repeat_interval_minutes }
              ?_ rfl rfl
            rw [htasks]
            exact List.mem_append_right _ (List.mem_singleton_self _)

theorem wf_get_task (db : DB) (a : Actor) (i : Nat) (hwf : Wf db) :
    Wf (get_task db a i).1 := by
  unfold get_task
  split
  · exact hwf
  · split <;> exact hwf

theorem wf_update_task (db : DB) (a : Actor) (i : Nat) (d : TaskUpdate)
    (hwf : Wf db) : Wf (update_task db a i d).1 := by
  unfold update_task
  split
  · exact hwf
  · split
    · exact hwf
    · rename_i row heq
      split
      · exact hwf
      · dsimp only
        refine wf_sync_task_tags _ _ _ _ ?_ ?_
        · exact wf_map_tasks _ (fun t => by split <;> rfl) (fun t => by split <;> rfl) hwf
        · have hm := findTask_mem heq
          have h2 := hwf.1.1 row hm.1
          rw [hm.2] at h2
          exact h2

theorem wf_delete_task (db : DB) (a : Actor) (i : Nat) (ok : String → Bool)
    (hwf : Wf db) : Wf (delete_task db a i ok).1 := by
  unfold delete_task cascadeTaskDelete
  split
  · exact hwf
  · split
    · exact hwf
    · refine wf_of_sub hwf (List.filter_sublist _) ?_ ?_ ?_ ?_ (le_refl _)
      · exact fun s hs => List.mem_of_mem_filter hs
      · exact fun f hf => List.mem_of_mem_filter hf
      · exact fun r hr => List.mem_of_mem_filter hr
      · exact fun p hp => List.mem_of_mem_filter hp

theorem wf_generate_next (db : DB) (a : Actor) (i : Nat) (hwf : Wf db) :
    Wf (generate_next_occurrence db a i).1 := by
  unfold generate_next_occurrence
  split
  · exact hwf
  · split
    · exact hwf
    · split
      · exact hwf
      · split
        · exact hwf
        · split
          · refine wf_foldl_insertTaskTag_pairs _ _ _ ?_ ?_
            · exact wf_append_task hwf rfl
            · exact Nat.lt_succ_self _
          · exact hwf

theorem wf_create_tag (db : DB) (a : Actor) (uid : Option Nat) (name : String)
    (hwf : Wf db) : Wf (create_tag db a uid name).1 := by
  unfold create_tag
  split
  · exact hwf
  · dsimp only
    split
    · exact hwf
    · split
      · exact hwf
      · refine wf_of_sub hwf (List.Sublist.refl _) (fun s hs => hs) (fun f hf => hf)
          (fun r hr => hr) (fun p hp => hp) (Nat.le_succ _)

theorem wf_update_tag (db : DB) (a : Actor) (i : Nat) (name : Option String)
    (hwf : Wf db) : Wf (update_tag db a i name).1 := by
  unfold update_tag
  split
  · exact hwf
  · split
    · exact hwf
    · split
      · exact hwf
      · split
        · exact hwf
        · refine wf_of_sub hwf (List.Sublist.refl _) (fun s hs => hs) (fun f hf => hf)
            (fun r hr => hr) (fun p hp => hp) (le_refl _)

theorem wf_delete_tag (db : DB) (a : Actor) (i : Nat) (hwf : Wf db) :
    Wf (delete_tag db a i).1 := by
  unfold delete_tag
  split
  · exact hwf
  · split
    · exact hwf
    · refine wf_of_sub hwf (List.Sublist.refl _) (fun s hs => hs) (fun f hf => hf)
        (fun r hr => hr) (fun p hp => hp) (le_refl _)

theorem wf_create_subtask (db : DB) (a : Actor) (d : SubTaskCreate)
    (hwf : Wf db) : Wf (create_subtask db a d).1 := by
  unfold create_subtask
  split
  · exact hwf
  next =>
    split
    · exact hwf
    next task heq =>
      split
      · exact hwf
      next =>
        exact wf_append_subtask hwf (findTask_mem heq).1 (findTask_mem heq).2.symm rfl

theorem wf_list_subtasks (db : DB) (a : Actor) (i : Nat) (hwf : Wf db) :
    Wf (list_subtasks db a i).1 := by
  unfold list_subtasks
  split
  · exact hwf
  · split <;> exact hwf

theorem wf_update_subtask (db : DB) (a : Actor) (i : Nat) (d : SubTaskUpdate)
    (hwf : Wf db) : Wf (update_subtask db a i d).1 := by
  unfold update_subtask
  split
  · exact hwf
  · split
    · exact hwf
    · split
      · exact hwf
      · split
        · exact hwf
        · exact wf_map_subtasks _ (fun s => by unfold applySubTaskUpdate
                                               split <;> rfl)
            (fun s => by unfold applySubTaskUpdate
                         split <;> rfl) hwf

theorem wf_delete_subtask (db : DB) (a : Actor) (i : Nat) (hwf : Wf db) :
    Wf (delete_subtask db a i).1 := by
  unfold delete_subtask
  split
  · exact hwf
  · split
    · exact hwf
    · split
      · exact hwf
      · refine wf_of_sub hwf (List.Sublist.refl _) ?_ (fun f hf => hf)
          (fun r hr => hr) (fun p hp => hp) (le_refl _)
        exact fun s hs => List.mem_of_mem_filter hs

theorem wf_upload_file (db : DB) (a : Actor) (i : Nat) (fn : String)
    (ct : Option String) (sz : Nat) (p : String) (hwf : Wf db) :
    Wf (upload_file db a i fn ct sz p).1 := by
  unfold upload_file
  split
  · exact hwf
  next task heq =>
    split
    · exact hwf
    next =>
      split
      · exact hwf
      · split
        · exact hwf
        · exact wf_append_file hwf (findTask_mem heq).1 (findTask_mem heq).2.symm
            rfl _

theorem wf_list_files (db : DB) (a : Actor) (i : Nat) (hwf : Wf db) :
    Wf (list_files db a i).1 := by
  unfold list_files
  split
  · exact hwf
  · split <;> exact hwf

theorem wf_download_file (db : DB) (a : Actor) (i : Nat) (hwf : Wf db) :
    Wf (download_file db a i).1 := by
  unfold download_file
  split
  · exact hwf
  · split
    · exact hwf
    · split
      · exact hwf
      · split <;> exact hwf

theorem wf_delete_file (db : DB) (a : Actor) (i : Nat) (ok : String → Bool)
    (hwf : Wf db) : Wf (delete_file db a i ok).1 := by
  unfold delete_file
  split
  · exact hwf
  · split
    · exact hwf
    · split
      · exact hwf
      · refine wf_of_sub hwf (List.Sublist.refl _) (fun s hs => hs) ?_
          (fun r hr => hr) (fun p hp => hp) (le_refl _)
        exact fun f hf => List.mem_of_mem_filter hf

theorem wf_create_reminder (db : DB) (a : Actor) (i : Nat) (d : ReminderCreate)
    (now : Int) (hwf : Wf db) : Wf (create_reminder db a i d now).1 := by
  unfold create_reminder
  split
  · exact hwf
  · split
    · exact hwf
    · rename_i task heq
      split
      · exact hwf
      · exact wf_append_reminder hwf (findTask_mem heq).1 (findTask_mem heq).2.symm rfl

theorem wf_list_reminders (db : DB) (a : Actor) (i : Nat) (hwf : Wf db) :
    Wf (list_reminders db a i).1 := by
  unfold list_reminders
  split
  · exact hwf
  · split <;> exact hwf

theorem wf_update_reminder (db : DB) (a : Actor) (i ri : Nat)
    (d : ReminderUpdate) (now : Int) (hwf : Wf db) :
    Wf (update_reminder db a i ri d now).1 := by
  unfold update_reminder
  split
  · exact hwf
  · split
    · exact hwf
    · split
      · exact hwf
      · split
        · exact hwf
        · split
          · exact hwf
          · exact wf_map_reminders _ (fun r => by split <;> rfl)
              (fun r => by split <;> rfl) hwf

theorem wf_delete_reminder (db : DB) (a : Actor) (i ri : Nat) (hwf : Wf db) :
    Wf (delete_reminder db a i ri).1 := by
  unfold delete_reminder
  split
  · exact hwf
  · split
    · exact hwf
    · split
      · exact hwf
      · refine wf_of_sub hwf (List.Sublist.refl _) (fun s hs => hs) (fun f hf => hf)
          ?_ (fun p hp => hp) (le_refl _)
        exact fun r hr => List.mem_of_mem_filter hr

/-- C2: every modeled operation, run by any actor, preserves the
cross-cutting invariant that each child row's user_id equals its parent
Task's user_id (together with store well-formedness); since the
invariant binds new child rows to the parent task's current owner for
every caller, child creation copies user_id from the parent task, never
from the calling actor. -/
theorem C2_child_ownership (op : Op) (a : Actor) (db : DB) (hwf : Wf db) :
    ChildInv (runOp op a db).1 ∧ Wf (runOp op a db).1 := by
  have main : Wf (runOp op a db).1 := by
    cases op with
    | createTask uid data => exact wf_create_task db a uid data hwf
    | getTask i => exact wf_get_task db a i hwf
    | updateTask i d => exact wf_update_task db a i d hwf
    | deleteTask i ok => exact wf_delete_task db a i ok hwf
    | generateNext i => exact wf_generate_next db a i hwf
    | createTag uid name => exact wf_create_tag db a uid name hwf
    | updateTag i name => exact wf_update_tag db a i name hwf
    | deleteTag i => exact wf_delete_tag db a i hwf
    | createSubtask d => exact wf_create_subtask db a d hwf
    | listSubtasks i => exact wf_list_subtasks db a i hwf
    | updateSubtask i d => exact wf_update_subtask db a i d hwf
    | deleteSubtask i => exact wf_delete_subtask db a i hwf
    | uploadFile i fn ct sz p => exact wf_upload_file db a i fn ct sz p hwf
    | listFiles i => exact wf_list_files db a i hwf
    | downloadFile i => exact wf_download_file db a i hwf
    | deleteFile i ok => exact wf_delete_file db a i ok hwf
    | createReminder i d now => exact wf_create_reminder db a i d now hwf
    | listReminders i => exact wf_list_reminders db a i hwf
    | updateReminder i ri d now => exact wf_update_reminder db a i ri d now hwf
    | deleteReminder i ri => exact wf_delete_reminder db a i ri hwf
  exact ⟨main.2.2, main⟩

theorem C2_child_ownership_witness :
    Wf sampleDB ∧
    ChildInv (runOp (.createSubtask (SubTaskCreate.mk 5 "n" false))
      ⟨9, .admin⟩ sampleDB).1 :=
  ⟨by decide,
    (C2_child_ownership (.createSubtask (SubTaskCreate.mk 5 "n" false))
      ⟨9, .admin⟩ sampleDB (by decide)).1⟩

end NeZabudu
